import Mathlib

/-! Stop-the-world thread suspension (kotlin-native/runtime/src/mm/cpp)

A verification development for `ThreadState.cpp` and `ThreadSuspensionUtils.cpp`.

* Part I embeds the mutator-side functions (`SwitchThreadState`, `AssertThreadState`,
  `SuspendCurrentThreadIfRequested`) as state transformers over the calling thread's
  own record.  What the thread cannot control (the value of each load of
  `gSuspensionRequested`) is an explicit input.
* Part II embeds the coordinator-side functions (`SuspendThreads`, `ResumeThreads`)
  as state transformers that read the thread states through a time-indexed view of
  the registry.
* Part III is a small-step interleaving semantics of the same code, one step per
  shared-memory access, used for the properties that quantify over interleavings.
-/

set_option autoImplicit false

namespace kotlin

/-! ## Data model -/

/-- The three thread states (`enum class ThreadState`). -/
inductive ThreadState
  | kRunnable
  | kNative
  | kSuspended
deriving DecidableEq, Repr

/-- The payload of a failed `RuntimeAssert`: which assertion fired, together with the
arguments of its format string. -/
inductive InvariantViolation
  /-- Message "Illegal thread state switch. Old state: %s. New state: %s." -/
  | illegalSwitch (oldState newState : ThreadState)
  /-- Message "Unexpected thread state. Expected: %s. Actual: %s." -/
  | unexpectedState (expected actual : ThreadState)
  /-- Message "Unexpected thread state. Expected one of: %s. Actual: %s" -/
  | unexpectedStateOneOf (expected : List ThreadState) (actual : ThreadState)
deriving DecidableEq, Repr

/-- Observable effects of the code, each tagged with the registry index of the thread
whose record is touched. -/
inductive Event
  /-- Embeds `gSuspensionRequested = value` -/
  | storeRequested (value : Bool)
  /-- Embeds `pthread_mutex_lock(thread.suspendMutex())` -/
  | lock (thread : Nat)
  /-- Embeds `pthread_mutex_unlock(thread.suspendMutex())` -/
  | unlock (thread : Nat)
  /-- Embeds `thread.setState(s)` -/
  | setState (thread : Nat) (s : ThreadState)
  /-- Embeds `pthread_cond_wait(thread.suspendCondition(), thread.suspendMutex())`, with the state
  the thread has while it is parked -/
  | condWait (thread : Nat) (stateWhileParked : ThreadState)
  /-- Embeds `pthread_cond_signal(thread.suspendCondition())` -/
  | condSignal (thread : Nat)
  /-- Embeds `std::this_thread::yield()` -/
  | yield
deriving DecidableEq, Repr

/-- Modelled from the spec: ThreadData (ThreadData.hpp is not part of the sources). The
per-thread record as a value: the position `id` of the record in the registry, which
identifies its `suspendMutex` and `suspendCondition`, and the current state. -/
structure ThreadData where
  id : Nat
  state : ThreadState
deriving DecidableEq, Repr

/-- Whether `thread.suspendMutex()` is held after the effects `trace` (oldest first), given
whether it was held before. -/
def suspendMutexHeld (thread : Nat) (before : Bool) (trace : List Event) : Bool :=
  trace.foldl
    (fun held e => if e = Event.lock thread then true
                   else if e = Event.unlock thread then false else held)
    before

/-- Result of running a piece of code on a machine state `σ`: it returns a value, or a
`RuntimeAssert` fires (the process aborts in the recorded state), or the fuel that bounds
recursion depth / spin iterations ran out. -/
inductive Outcome (σ α : Type)
  | returned (value : α) (st : σ)
  | violation (why : InvariantViolation) (st : σ)
  | outOfFuel
deriving DecidableEq, Repr

/-- Sequencing of two pieces of code. -/
def Outcome.andThen {σ α β : Type} (r : Outcome σ α) (f : α → σ → Outcome σ β) : Outcome σ β :=
  match r with
  | .returned a st => f a st
  | .violation why st => .violation why st
  | .outOfFuel => .outOfFuel

/-- Modelled from the spec: RuntimeAssert (the macro is not part of the sources). A failed
assertion is a fatal invariant violation; a passing one has no effect. -/
def RuntimeAssert {σ : Type} (condition : Bool) (why : InvariantViolation) (st : σ) :
    Outcome σ Unit :=
  if condition then .returned () st else .violation why st

/-! ## Part I: the calling thread's code -/

/-- The machine state of one mutator thread running the code below: its own record, the
number of loads of `gSuspensionRequested` it has performed, and the effects so far
(oldest first). -/
structure Mutator where
  threadData : ThreadData
  loads : Nat
  trace : List Event
deriving DecidableEq, Repr

/-- Embeds `threadData->state()` -/
def Mutator.state (m : Mutator) : ThreadState := m.threadData.state

/-- Embeds `threadData->setState(s)` -/
def Mutator.setState (m : Mutator) (s : ThreadState) : Mutator :=
  { m with threadData := { m.threadData with state := s },
           trace := m.trace ++ [Event.setState m.threadData.id s] }

/-- Embeds `kotlin::mm::IsThreadSuspensionRequested`: `gSuspensionRequested.load()`. The flag is
written by the coordinator only, so the value of the `k`-th load of this thread is an
input, `requested k`. -/
def IsThreadSuspensionRequested (requested : Nat → Bool) (m : Mutator) : Bool × Mutator :=
  (requested m.loads, { m with loads := m.loads + 1 })

/-- Embeds the `LockGuard` constructor on the thread's own `suspendMutex`. -/
def Mutator.lockSuspendMutex (m : Mutator) : Mutator :=
  { m with trace := m.trace ++ [Event.lock m.threadData.id] }

/-- Embeds the `LockGuard` destructor. -/
def Mutator.unlockSuspendMutex (m : Mutator) : Mutator :=
  { m with trace := m.trace ++ [Event.unlock m.threadData.id] }

/-- Embeds `pthread_cond_wait(suspendCondition, suspendMutex)`: the mutex is released while the
thread is parked and held again when the call returns. The call returning stands for the
thread having been woken. -/
def Mutator.condWait (m : Mutator) : Mutator :=
  { m with trace := m.trace ++ [Event.condWait m.threadData.id m.threadData.state] }

/-- Embeds `isStateSwitchAllowed` (ThreadState.cpp:13). -/
def isStateSwitchAllowed (oldState newState : ThreadState) : Bool :=
  oldState != newState

/-- Embeds `AssertThreadState(mm::ThreadData*, ThreadState)` (ThreadState.cpp:62), run by a machine
in state `st` on the record `threadData`. -/
def AssertThreadState {σ : Type} (threadData : ThreadData) (expected : ThreadState) (st : σ) :
    Outcome σ Unit :=
  let actual := threadData.state
  RuntimeAssert (actual == expected) (.unexpectedState expected actual) st

/-- The loop of ThreadState.cpp:75-81 computing `expectedContainsActual`. -/
def expectedContainsActual : List ThreadState → ThreadState → Bool
  | [], _ => false
  | state :: rest, actual => if state == actual then true else expectedContainsActual rest actual

/-- Embeds `AssertThreadState(mm::ThreadData*, std::initializer_list<ThreadState>)`
(ThreadState.cpp:73), run by a machine in state `st` on the record `threadData`. -/
def AssertThreadStates {σ : Type} (threadData : ThreadData) (expected : List ThreadState)
    (st : σ) : Outcome σ Unit :=
  let actual := threadData.state
  RuntimeAssert (expectedContainsActual expected actual)
    (.unexpectedStateOneOf expected actual) st

/-- Modelled from the spec: ThreadStateGuard (ThreadState.hpp is not part of the sources),
the scope-guarded transition. This is its constructor, `oldState_ = SwitchThreadState(thread,
state)`, over the given embedding of `SwitchThreadState`. -/
def ThreadStateGuard.enter
    (switchThreadState : Mutator → ThreadState → Outcome Mutator ThreadState)
    (m : Mutator) (state : ThreadState) : Outcome Mutator ThreadState :=
  switchThreadState m state

/-- Modelled from the spec: ThreadStateGuard (ThreadState.hpp is not part of the sources).
This is its destructor, `SwitchThreadState(thread, oldState_)`, which restores the state
the constructor replaced. -/
def ThreadStateGuard.exit
    (switchThreadState : Mutator → ThreadState → Outcome Mutator ThreadState)
    (m : Mutator) (oldState_ : ThreadState) : Outcome Mutator Unit :=
  (switchThreadState m oldState_).andThen fun _ m => .returned () m

mutual

/-- Embeds `kotlin::SwitchThreadState(mm::ThreadData*, ThreadState)` (ThreadState.cpp:44),
called on the record of the current thread. The fuel bounds the depth of the recursion
`SwitchThreadState → SuspendCurrentThreadIfRequested → ThreadStateGuard → SwitchThreadState`. -/
def SwitchThreadStateAux (requested : Nat → Bool) :
    Nat → Mutator → ThreadState → Outcome Mutator ThreadState
  | 0, _, _ => .outOfFuel
  | fuel + 1, m, newState =>
    let oldState := m.state
    (RuntimeAssert (isStateSwitchAllowed oldState newState)
        (.illegalSwitch oldState newState) m).andThen fun _ m =>
    (if oldState == .kNative && newState == .kRunnable then
        SuspendCurrentThreadIfRequestedAux requested fuel m
      else .returned () m).andThen fun _ m =>
    .returned oldState (m.setState newState)

/-- Embeds `kotlin::mm::SuspendCurrentThreadIfRequested` (ThreadSuspensionUtils.cpp:58). The
`ThreadStateGuard` lives from its declaration to the end of the inner block, the `LockGuard`
to the end of the outer one. -/
def SuspendCurrentThreadIfRequestedAux (requested : Nat → Bool) :
    Nat → Mutator → Outcome Mutator Unit
  | 0, _ => .outOfFuel
  | fuel + 1, m =>
    let (isRequested, m) := IsThreadSuspensionRequested requested m
    if isRequested then
      let m := m.lockSuspendMutex
      let (isRequested, m) := IsThreadSuspensionRequested requested m
      (if isRequested then
          (AssertThreadStates m.threadData [.kRunnable, .kNative] m).andThen fun _ m =>
          (ThreadStateGuard.enter (SwitchThreadStateAux requested fuel) m .kSuspended).andThen
            fun oldState_ m =>
          let m := m.condWait
          ThreadStateGuard.exit (SwitchThreadStateAux requested fuel) m oldState_
        else .returned () m).andThen fun _ m =>
      .returned () m.unlockSuspendMutex
    else .returned () m

end

/-- Recursion depth that the code can reach: switch → poll → guard switch (→ poll). -/
def callDepth : Nat := 4

/-- Embeds `kotlin::SwitchThreadState`, with enough fuel for every call chain. -/
def SwitchThreadState (requested : Nat → Bool) (m : Mutator) (newState : ThreadState) :
    Outcome Mutator ThreadState :=
  SwitchThreadStateAux requested callDepth m newState

/-- Embeds `kotlin::mm::SuspendCurrentThreadIfRequested`, with enough fuel for every call
chain. -/
def SuspendCurrentThreadIfRequested (requested : Nat → Bool) (m : Mutator) :
    Outcome Mutator Unit :=
  SuspendCurrentThreadIfRequestedAux requested callDepth m

/-- Whether running the code ended in a failed `RuntimeAssert`. -/
def Outcome.isViolation {σ α : Type} : Outcome σ α → Bool
  | .violation _ _ => true
  | _ => false

/-- The machine state in which a poll that parks returns: two loads of the flag, then
lock, guard entry, wait, guard exit, unlock. -/
def Mutator.afterPark (m : Mutator) : Mutator :=
  ((({ m with loads := m.loads + 2 }.lockSuspendMutex.setState .kSuspended).condWait).setState
    m.state).unlockSuspendMutex

/-- The machine state in which a poll returns, by the values of its loads of the flag. -/
def Mutator.afterPoll (requested : Nat → Bool) (m : Mutator) : Mutator :=
  if requested m.loads then
    if requested (m.loads + 1) then m.afterPark
    else { m with loads := m.loads + 2 }.lockSuspendMutex.unlockSuspendMutex
  else { m with loads := m.loads + 1 }

/-! ## Part II: the coordinator's code -/

/-- Modelled from the spec: ThreadRegistry (not part of the sources). The registry holds
`size` records; `stateAt time i` is the state that a load of record `i` returns when it is
the `time`-th load of a thread state by the coordinator, so the mutators may change their
states between any two loads. -/
structure ThreadRegistry where
  size : Nat
  stateAt : Nat → Nat → ThreadState

/-- A registry whose thread states do not change. -/
def ThreadRegistry.static (states : List ThreadState) : ThreadRegistry :=
  { size := states.length, stateAt := fun _ i => states.getD i .kRunnable }

/-- The machine state of the coordinator: the flag (it is the only writer), the number of
thread-state loads performed, and the effects so far (oldest first). -/
structure Coordinator where
  gSuspensionRequested : Bool
  clock : Nat
  trace : List Event
deriving DecidableEq, Repr

/-- Embeds `gSuspensionRequested = value` -/
def Coordinator.storeRequested (c : Coordinator) (value : Bool) : Coordinator :=
  { c with gSuspensionRequested := value, trace := c.trace ++ [Event.storeRequested value] }

/-- Dereferencing the registry iterator at record `i`: the record as it is at this load. -/
def Coordinator.load (registry : ThreadRegistry) (c : Coordinator) (i : Nat) :
    ThreadData × Coordinator :=
  ({ id := i, state := registry.stateAt c.clock i }, { c with clock := c.clock + 1 })

/-- Appends one effect to the coordinator's trace. -/
def Coordinator.emit (c : Coordinator) (e : Event) : Coordinator :=
  { c with trace := c.trace ++ [e] }

/-- Embeds `isSuspendedOrNative` (ThreadSuspensionUtils.cpp:13). -/
def isSuspendedOrNative (thread : ThreadData) : Bool :=
  let state := thread.state
  state == .kSuspended || state == .kNative

/-- Embeds `isRunnableOrNative` (ThreadSuspensionUtils.cpp:18). -/
def isRunnableOrNative (thread : ThreadData) : Bool :=
  let state := thread.state
  state == .kRunnable || state == .kNative

/-- The loop of `allThreads` over the records `i, i+1, ..., i+remaining-1`: returns `false` at
the first record that fails `Check`. -/
def allThreadsFrom (Check : ThreadData → Bool) (registry : ThreadRegistry) :
    Nat → Nat → Coordinator → Bool × Coordinator
  | 0, _, c => (true, c)
  | remaining + 1, i, c =>
    let (thread, c) := c.load registry i
    if !Check thread then (false, c) else allThreadsFrom Check registry remaining (i + 1) c

/-- Embeds `allThreads<Check>` (ThreadSuspensionUtils.cpp:23). -/
def allThreads (Check : ThreadData → Bool) (registry : ThreadRegistry) (c : Coordinator) :
    Bool × Coordinator :=
  allThreadsFrom Check registry registry.size 0 c

/-- Embeds `while(!allThreads<Check>()) { yield(); }`; the fuel bounds the number of scans. -/
def spinUntilAllThreads (Check : ThreadData → Bool) (registry : ThreadRegistry) :
    Nat → Coordinator → Outcome Coordinator Unit
  | 0, _ => .outOfFuel
  | fuel + 1, c =>
    let (done, c) := allThreads Check registry c
    if !done then spinUntilAllThreads Check registry fuel (c.emit .yield)
    else .returned () c

/-- Embeds `kotlin::mm::SuspendThreads` (ThreadSuspensionUtils.cpp:71). -/
def SuspendThreads (registry : ThreadRegistry) (fuel : Nat) (c : Coordinator) :
    Outcome Coordinator Unit :=
  let c := c.storeRequested true
  spinUntilAllThreads isSuspendedOrNative registry fuel c

/-- The body of the `for` loop of `ResumeThreads` (ThreadSuspensionUtils.cpp:84-89) over the
records `i, ..., i+remaining-1`. -/
def signalThreadsFrom (registry : ThreadRegistry) :
    Nat → Nat → Coordinator → Outcome Coordinator Unit
  | 0, _, c => .returned () c
  | remaining + 1, i, c =>
    let (thread, c) := c.load registry i
    (AssertThreadStates thread [.kNative, .kSuspended] c).andThen fun _ c =>
    let c := c.emit (.lock i)
    let (thread, c) := c.load registry i
    let c := if thread.state == .kSuspended then c.emit (.condSignal i) else c
    let c := c.emit (.unlock i)
    signalThreadsFrom registry remaining (i + 1) c

/-- The signalling pass of `ResumeThreads` (ThreadSuspensionUtils.cpp:81-91): the store to
the flag and the `for` loop. -/
def ResumeThreads.signallingPass (registry : ThreadRegistry) (c : Coordinator) :
    Outcome Coordinator Unit :=
  let c := c.storeRequested false
  signalThreadsFrom registry registry.size 0 c

/-- Embeds `kotlin::mm::ResumeThreads` (ThreadSuspensionUtils.cpp:80). -/
def ResumeThreads (registry : ThreadRegistry) (fuel : Nat) (c : Coordinator) :
    Outcome Coordinator Unit :=
  (ResumeThreads.signallingPass registry c).andThen fun _ c =>
  spinUntilAllThreads isRunnableOrNative registry fuel c

/-- The effects the claim ascribes to the signalling pass on the records with states
`states`, the first of them at index `i`: lock each record, signal it when it is Suspended,
unlock it. -/
def signallingEvents : Nat → List ThreadState → List Event
  | _, [] => []
  | i, s :: rest =>
    (Event.lock i :: (if s = .kSuspended then [Event.condSignal i] else []))
      ++ Event.unlock i :: signallingEvents (i + 1) rest

/-! ## Part III: interleaving semantics

One step is one access to shared memory (a load or store of the flag or of a thread
state, a mutex or condition-variable operation); the accesses of the mutators and of the
coordinator interleave in any order. -/

mutual

/-- Who called an activation of `SwitchThreadState`, i.e. where it returns to. -/
inductive SwitchCaller
  /-- the mutator's own code -/
  | mutator
  /-- the constructor of the `ThreadStateGuard` of a poll called by `poll` -/
  | guardEnter (poll : PollCaller)
  /-- the destructor of the `ThreadStateGuard` of a poll called by `poll` -/
  | guardExit (poll : PollCaller)
deriving DecidableEq, Repr

/-- Who called an activation of `SuspendCurrentThreadIfRequested`. -/
inductive PollCaller
  /-- the mutator's own code -/
  | mutator
  /-- ThreadState.cpp:52, in a `SwitchThreadState` that has read `oldState` -/
  | switchThreadState (oldState newState : ThreadState) (caller : SwitchCaller)
deriving DecidableEq, Repr

end

/-- Program counter of a mutator thread. -/
inductive Pc
  /-- outside the calls modelled here -/
  | idle
  /-- a `RuntimeAssert` of this thread failed -/
  | aborted
  /-- ThreadState.cpp:46-53: load the old state, assert, decide whether to poll -/
  | switchEntry (newState : ThreadState) (caller : SwitchCaller)
  /-- ThreadState.cpp:54-55: store the new state, return the old one -/
  | switchStore (oldState newState : ThreadState) (caller : SwitchCaller)
  /-- ThreadSuspensionUtils.cpp:59: first load of the flag -/
  | pollEntry (caller : PollCaller)
  /-- ThreadSuspensionUtils.cpp:61: lock the own suspend mutex -/
  | pollLock (caller : PollCaller)
  /-- ThreadSuspensionUtils.cpp:63: second load of the flag, under the lock -/
  | pollRecheck (caller : PollCaller)
  /-- ThreadSuspensionUtils.cpp:64-65: assert Runnable or Native, enter the guard -/
  | pollAssert (caller : PollCaller)
  /-- ThreadSuspensionUtils.cpp:66: about to call `pthread_cond_wait` -/
  | pollWait (saved : ThreadState) (caller : PollCaller)
  /-- blocked in `pthread_cond_wait`, mutex released, not signalled -/
  | pollParked (saved : ThreadState) (caller : PollCaller)
  /-- woken; `pthread_cond_wait` has to take the mutex again before it returns -/
  | pollWoken (saved : ThreadState) (caller : PollCaller)
  /-- ThreadSuspensionUtils.cpp:68: the guard has been left, unlock and return -/
  | pollUnlock (caller : PollCaller)
deriving DecidableEq, Repr

/-- Who holds a thread's `suspendMutex`: nobody, the thread itself, or the coordinator. -/
inductive Holder
  | free
  | mutator
  | coordinator
deriving DecidableEq, Repr

/-- One registered mutator thread: its record and its program counter. -/
structure Thread where
  state : ThreadState
  suspendMutex : Holder
  pc : Pc
deriving DecidableEq, Repr

/-- Program counter of the coordinator, which runs `SuspendThreads(); ResumeThreads();`
repeatedly. -/
inductive CoordinatorPc
  /-- outside both calls, `SuspendThreads` is called next -/
  | idle
  /-- ThreadSuspensionUtils.cpp:75, `allThreads<isSuspendedOrNative>` about to check record `i` -/
  | suspendScan (i : Nat)
  /-- ThreadSuspensionUtils.cpp:76 -/
  | suspendYield
  /-- The call of `SuspendThreads` has returned, `ResumeThreads` is called next -/
  | stopped
  /-- ThreadSuspensionUtils.cpp:85, about to assert on record `i` -/
  | resumeAssert (i : Nat)
  /-- ThreadSuspensionUtils.cpp:86, about to lock the mutex of record `i` -/
  | resumeLock (i : Nat)
  /-- ThreadSuspensionUtils.cpp:87, holding the mutex of record `i`, about to load its state -/
  | resumeCheck (i : Nat)
  /-- ThreadSuspensionUtils.cpp:88, about to signal the condition of record `i` -/
  | resumeSignal (i : Nat)
  /-- ThreadSuspensionUtils.cpp:89, about to unlock the mutex of record `i` -/
  | resumeUnlock (i : Nat)
  /-- ThreadSuspensionUtils.cpp:96, `allThreads<isRunnableOrNative>` about to check record `i` -/
  | resumeScan (i : Nat)
  /-- ThreadSuspensionUtils.cpp:97 -/
  | resumeYield
  /-- the `RuntimeAssert` of ThreadSuspensionUtils.cpp:85 failed -/
  | aborted
deriving DecidableEq, Repr

/-- The whole process: the flag, the registry of `size` threads, the coordinator, and
whether a failed `RuntimeAssert` has aborted the process. -/
structure System where
  gSuspensionRequested : Bool
  size : Nat
  threads : Nat → Thread
  coordinator : CoordinatorPc
  aborted : Bool

/-- Where a returning `SwitchThreadState` continues, given the value it returns. -/
def SwitchCaller.resume : SwitchCaller → ThreadState → Pc
  | .mutator, _ => .idle
  | .guardEnter poll, oldState_ => .pollWait oldState_ poll
  | .guardExit poll, _ => .pollUnlock poll

/-- Where a returning `SuspendCurrentThreadIfRequested` continues. -/
def PollCaller.resume : PollCaller → Pc
  | .mutator => .idle
  | .switchThreadState oldState newState caller => .switchStore oldState newState caller

/-- The next statement of a mutator thread, given the current value of the flag; `none`
when the thread cannot move (idle, aborted, blocked on the mutex or on the condition). -/
def Thread.step (gSuspensionRequested : Bool) (t : Thread) : Option Thread :=
  match t.pc with
  | .idle => none
  | .aborted => none
  | .switchEntry newState caller =>
    let oldState := t.state
    if !isStateSwitchAllowed oldState newState then some { t with pc := .aborted }
    else if oldState == .kNative && newState == .kRunnable then
      some { t with pc := .pollEntry (.switchThreadState oldState newState caller) }
    else some { t with pc := .switchStore oldState newState caller }
  | .switchStore oldState newState caller =>
    some { t with state := newState, pc := caller.resume oldState }
  | .pollEntry caller =>
    if gSuspensionRequested then some { t with pc := .pollLock caller }
    else some { t with pc := caller.resume }
  | .pollLock caller =>
    if t.suspendMutex = .free then
      some { t with suspendMutex := .mutator, pc := .pollRecheck caller }
    else none
  | .pollRecheck caller =>
    if gSuspensionRequested then some { t with pc := .pollAssert caller }
    else some { t with pc := .pollUnlock caller }
  | .pollAssert caller =>
    if expectedContainsActual [.kRunnable, .kNative] t.state then
      some { t with pc := .switchEntry .kSuspended (.guardEnter caller) }
    else some { t with pc := .aborted }
  | .pollWait saved caller =>
    some { t with suspendMutex := .free, pc := .pollParked saved caller }
  | .pollParked _ _ => none
  | .pollWoken saved caller =>
    if t.suspendMutex = .free then
      some { t with suspendMutex := .mutator, pc := .switchEntry saved (.guardExit caller) }
    else none
  | .pollUnlock caller =>
    some { t with suspendMutex := .free, pc := caller.resume }

/-- The thread's `pthread_cond_wait` wakes up: by a signal or spuriously. -/
def Thread.wake (t : Thread) : Thread :=
  match t.pc with
  | .pollParked saved caller => { t with pc := .pollWoken saved caller }
  | _ => t

/-- Replaces the record of thread `i`. -/
def System.setThread (σ : System) (i : Nat) (t : Thread) : System :=
  { σ with threads := Function.update σ.threads i t }

/-- The next statement of the coordinator; `none` when it cannot move. -/
def System.coordinatorStep (σ : System) : Option System :=
  match σ.coordinator with
  | .idle => some { σ with gSuspensionRequested := true, coordinator := .suspendScan 0 }
  | .suspendScan i =>
    if i < σ.size then
      if !isSuspendedOrNative ⟨i, (σ.threads i).state⟩ then
        some { σ with coordinator := .suspendYield }
      else some { σ with coordinator := .suspendScan (i + 1) }
    else some { σ with coordinator := .stopped }
  | .suspendYield => some { σ with coordinator := .suspendScan 0 }
  | .stopped => some { σ with gSuspensionRequested := false, coordinator := .resumeAssert 0 }
  | .resumeAssert i =>
    if i < σ.size then
      if expectedContainsActual [.kNative, .kSuspended] (σ.threads i).state then
        some { σ with coordinator := .resumeLock i }
      else some { σ with coordinator := .aborted, aborted := true }
    else some { σ with coordinator := .resumeScan 0 }
  | .resumeLock i =>
    if (σ.threads i).suspendMutex = .free then
      some { σ.setThread i { σ.threads i with suspendMutex := .coordinator } with
        coordinator := .resumeCheck i }
    else none
  | .resumeCheck i =>
    if (σ.threads i).state == .kSuspended then some { σ with coordinator := .resumeSignal i }
    else some { σ with coordinator := .resumeUnlock i }
  | .resumeSignal i =>
    some { σ.setThread i (σ.threads i).wake with coordinator := .resumeUnlock i }
  | .resumeUnlock i =>
    some { σ.setThread i { σ.threads i with suspendMutex := .free } with
      coordinator := .resumeAssert (i + 1) }
  | .resumeScan i =>
    if i < σ.size then
      if !isRunnableOrNative ⟨i, (σ.threads i).state⟩ then
        some { σ with coordinator := .resumeYield }
      else some { σ with coordinator := .resumeScan (i + 1) }
    else some { σ with coordinator := .idle }
  | .resumeYield => some { σ with coordinator := .resumeScan 0 }
  | .aborted => none

/-- What the scheduler may pick next. -/
inductive Action
  /-- the idle mutator `i` calls `SwitchThreadState(threadData, newState)` -/
  | callSwitch (i : Nat) (newState : ThreadState)
  /-- the idle mutator `i` calls `SuspendCurrentThreadIfRequested()` -/
  | callPoll (i : Nat)
  /-- mutator `i` executes its next statement -/
  | mutator (i : Nat)
  /-- the `pthread_cond_wait` of mutator `i` wakes up spuriously -/
  | spuriousWakeup (i : Nat)
  /-- the coordinator executes its next statement -/
  | coordinator
deriving DecidableEq, Repr

/-- One step of the process; `none` when the action is not enabled. Nothing moves after an
abort, and only registered threads move. -/
def System.step (σ : System) (a : Action) : Option System :=
  if σ.aborted then none
  else match a with
    | .callSwitch i newState =>
      if i < σ.size ∧ (σ.threads i).pc = .idle then
        some (σ.setThread i { σ.threads i with pc := .switchEntry newState .mutator })
      else none
    | .callPoll i =>
      if i < σ.size ∧ (σ.threads i).pc = .idle then
        some (σ.setThread i { σ.threads i with pc := .pollEntry .mutator })
      else none
    | .mutator i =>
      if i < σ.size then
        match (σ.threads i).step σ.gSuspensionRequested with
        | none => none
        | some t => some { σ.setThread i t with aborted := decide (t.pc = .aborted) }
      else none
    | .spuriousWakeup i =>
      if i < σ.size then some (σ.setThread i (σ.threads i).wake) else none
    | .coordinator => σ.coordinatorStep

/-- Runs a schedule; `none` when one of its actions is not enabled. -/
def System.run (σ : System) : List Action → Option System
  | [] => some σ
  | a :: rest =>
    match σ.step a with
    | none => none
    | some σ' => σ'.run rest

/-- The process before the coordinator has done anything: every registered thread is
outside the calls, in the given state, and no mutex is held. -/
def System.init (size : Nat) (states : Nat → ThreadState) : System :=
  { gSuspensionRequested := false
    size := size
    threads := fun i => { state := states i, suspendMutex := .free, pc := .idle }
    coordinator := .idle
    aborted := false }

/-- What the race of the state switch with `SuspendThreads` is checked on: the coordinator's
position, the flag, whether the process has aborted, and the record of thread 0. -/
def System.observe (σ : System) : CoordinatorPc × Bool × Bool × Thread :=
  (σ.coordinator, σ.gSuspensionRequested, σ.aborted, σ.threads 0)

/-- A schedule for one thread that starts Runnable and goes to Native and back, as the
threads of the test `SwitchStateToNative` do. The thread's poll loads the flag before the
coordinator sets it, and stores Runnable after the coordinator's scan has seen it Native. -/
def raceSchedule : List Action :=
  [ .callSwitch 0 .kNative, .mutator 0, .mutator 0,   -- Runnable → Native
    .callSwitch 0 .kRunnable,
    .mutator 0,        -- ThreadState.cpp:46-52: oldState = Native, enters the poll
    .mutator 0,        -- ThreadSuspensionUtils.cpp:59: the flag is false, the poll returns
    .coordinator,      -- ThreadSuspensionUtils.cpp:72: gSuspensionRequested = true
    .coordinator,      -- ThreadSuspensionUtils.cpp:75: thread 0 is Native
    .coordinator,      -- the scan is complete, SuspendThreads returns
    .mutator 0 ]       -- ThreadState.cpp:54: setState(Runnable)

/-- A schedule in which the thread is Native when `SuspendThreads` runs, then switches to
Runnable, parks in the poll, and its `pthread_cond_wait` wakes up spuriously: the poll does
not look at the flag again. -/
def spuriousSchedule : List Action :=
  [ .callSwitch 0 .kNative, .mutator 0, .mutator 0,   -- Runnable → Native
    .coordinator, .coordinator, .coordinator,         -- SuspendThreads sets the flag and returns
    .callSwitch 0 .kRunnable,
    .mutator 0,        -- ThreadState.cpp:46-52: oldState = Native, enters the poll
    .mutator 0,        -- ThreadSuspensionUtils.cpp:59: the flag is set
    .mutator 0,        -- ThreadSuspensionUtils.cpp:61: lock
    .mutator 0,        -- ThreadSuspensionUtils.cpp:63: the flag is still set
    .mutator 0,        -- ThreadSuspensionUtils.cpp:64-65: assert, enter the guard
    .mutator 0, .mutator 0,   -- guard: Native → Suspended
    .mutator 0,        -- ThreadSuspensionUtils.cpp:66: parked
    .spuriousWakeup 0,
    .mutator 0,        -- pthread_cond_wait takes the mutex again and returns
    .mutator 0, .mutator 0,   -- guard: Suspended → Native
    .mutator 0,        -- unlock, the poll returns
    .mutator 0 ]       -- ThreadState.cpp:54: setState(Runnable)

/-! ### Invariant of the interleaving semantics -/

/-- The poll is not nested inside the guard of another poll. -/
def PollCaller.outermost : PollCaller → Bool
  | .mutator => true
  | .switchThreadState _ _ .mutator => true
  | .switchThreadState _ _ _ => false

/-- The shapes of program counter that occur, with what they imply for the thread's state:
a guard enters Suspended, and the thread is Suspended from the guard's entry to its exit. -/
def Pc.wellFormed (state : ThreadState) : Pc → Bool
  | .idle => true
  | .aborted => true
  | .switchEntry _ .mutator => true
  | .switchEntry newState (.guardEnter poll) => poll.outermost && newState == .kSuspended
  | .switchEntry _ (.guardExit poll) => poll.outermost && state == .kSuspended
  | .switchStore _ _ .mutator => true
  | .switchStore _ newState (.guardEnter poll) => poll.outermost && newState == .kSuspended
  | .switchStore _ _ (.guardExit poll) => poll.outermost
  | .pollEntry poll => poll.outermost
  | .pollLock poll => poll.outermost
  | .pollRecheck poll => poll.outermost
  | .pollAssert poll => poll.outermost
  | .pollWait _ poll => poll.outermost && state == .kSuspended
  | .pollParked _ poll => poll.outermost && state == .kSuspended
  | .pollWoken _ poll => poll.outermost && state == .kSuspended
  | .pollUnlock poll => poll.outermost

/-- The thread is between taking and releasing its own suspend mutex. -/
def Pc.holdsMutex : Pc → Bool
  | .switchEntry _ (.guardEnter _) => true
  | .switchEntry _ (.guardExit _) => true
  | .switchStore _ _ (.guardEnter _) => true
  | .switchStore _ _ (.guardExit _) => true
  | .pollRecheck _ => true
  | .pollAssert _ => true
  | .pollWait _ _ => true
  | .pollUnlock _ => true
  | _ => false

/-- The thread has seen the flag set under the lock and will park without looking at the
flag again. -/
def Pc.committed : Pc → Bool
  | .pollAssert _ => true
  | .switchEntry _ (.guardEnter _) => true
  | .switchStore _ _ (.guardEnter _) => true
  | .pollWait _ _ => true
  | _ => false

/-- The thread is blocked in `pthread_cond_wait` and has not been signalled. -/
def Pc.parked : Pc → Bool
  | .pollParked _ _ => true
  | _ => false

/-- The coordinator holds the suspend mutex of record `i`. -/
def CoordinatorPc.holds (c : CoordinatorPc) (i : Nat) : Bool :=
  c = .resumeCheck i || c = .resumeSignal i || c = .resumeUnlock i

/-- Since the flag was last cleared, the coordinator has taken the suspend mutex of
record `i` (or no suspension has been requested yet). -/
def CoordinatorPc.hasLocked : CoordinatorPc → Nat → Bool
  | .idle, _ => true
  | .resumeAssert j, i => i < j
  | .resumeLock j, i => i < j
  | .resumeCheck j, i => i ≤ j
  | .resumeSignal j, i => i ≤ j
  | .resumeUnlock j, i => i ≤ j
  | .resumeScan _, _ => true
  | .resumeYield, _ => true
  | _, _ => false

/-- Since the flag was last cleared, the signalling pass of `ResumeThreads` has dealt with
record `i`: it has executed ThreadSuspensionUtils.cpp:87-88 for it, signalling it if it read
Suspended (or no suspension has been requested yet). -/
def CoordinatorPc.hasSignalled : CoordinatorPc → Nat → Bool
  | .idle, _ => true
  | .resumeAssert j, i => i < j
  | .resumeLock j, i => i < j
  | .resumeCheck j, i => i < j
  | .resumeSignal j, i => i < j
  | .resumeUnlock j, i => i ≤ j
  | .resumeScan _, _ => true
  | .resumeYield, _ => true
  | _, _ => false

/-- The call of `ResumeThreads` has finished its signalling pass (and `SuspendThreads` has not been
called again). -/
def CoordinatorPc.signallingPassDone : CoordinatorPc → Bool
  | .resumeScan _ => true
  | .resumeYield => true
  | .idle => true
  | _ => false

/-- What holds of every registered thread `i` in every reachable state. -/
structure ThreadInvariant (gSuspensionRequested : Bool) (c : CoordinatorPc) (i : Nat)
    (t : Thread) : Prop where
  wellFormed : t.pc.wellFormed t.state = true
  ownMutex : t.pc.holdsMutex = true → t.suspendMutex = .mutator
  coordinatorMutex : c.holds i = true → t.suspendMutex = .coordinator
  notCommitted : gSuspensionRequested = false → c.hasLocked i = true → t.pc.committed = false
  notParked : gSuspensionRequested = false → c.hasSignalled i = true → t.pc.parked = false

/-- The invariant of the process. -/
def System.Invariant (σ : System) : Prop :=
  ∀ i, i < σ.size → ThreadInvariant σ.gSuspensionRequested σ.coordinator i (σ.threads i)

/-- A schedule in which thread 0 (Runnable) parks in the poll during a suspension and the
signalling pass of `ResumeThreads` wakes it. -/
def parkSchedule : List Action :=
  [ .coordinator,                  -- SuspendThreads: gSuspensionRequested = true
    .callPoll 0, .mutator 0,       -- first load: set
    .mutator 0,                    -- lock
    .mutator 0,                    -- second load: set
    .mutator 0,                    -- assert, enter the guard
    .mutator 0, .mutator 0,        -- guard: Runnable → Suspended
    .mutator 0,                    -- pthread_cond_wait: parked
    .coordinator, .coordinator,    -- scan: thread 0 is Suspended; SuspendThreads returns
    .coordinator,                  -- ResumeThreads: gSuspensionRequested = false
    .coordinator, .coordinator,    -- assert, lock
    .coordinator, .coordinator,    -- thread 0 is Suspended: signal
    .coordinator,                  -- unlock
    .coordinator ]                 -- the loop is over

/-- A thread in state Native that has not run any of the code yet. -/
def nativeThread : Mutator := { threadData := { id := 0, state := .kNative }, loads := 0, trace := [] }

/-- A thread in state Runnable that has not run any of the code yet. -/
def runnableThread : Mutator :=
  { threadData := { id := 0, state := .kRunnable }, loads := 0, trace := [] }

/-- A coordinator that has not run any of the code yet. -/
def freshCoordinator : Coordinator := { gSuspensionRequested := false, clock := 0, trace := [] }

/-- A registry of one thread that is Suspended for the first two loads of its state and
Runnable from then on, as a parked thread that the signalling pass wakes. -/
def wakingRegistry : ThreadRegistry :=
  { size := 1, stateAt := fun time _ => if time < 2 then .kSuspended else .kRunnable }

/-- Whether the next statement of the thread is a load of the flag. -/
def Pc.loadsFlag : Pc → Bool
  | .pollEntry _ => true
  | .pollRecheck _ => true
  | _ => false

/-- Runs one thread of the interleaving semantics for at most `steps` statements while
nobody else touches its mutex: its `k`-th load of the flag returns `requested k`, and when
it is parked it is woken. The result is the number of loads and the thread. -/
def Thread.runAlone (requested : Nat → Bool) : Nat → Nat × Thread → Nat × Thread
  | 0, x => x
  | steps + 1, (loads, t) =>
    if t.pc.parked then Thread.runAlone requested steps (loads, t.wake)
    else
      match t.step (requested loads) with
      | none => (loads, t)
      | some t' =>
        Thread.runAlone requested steps (if t.pc.loadsFlag then loads + 1 else loads, t')

/-- Runs the coordinator alone for at most `steps` statements. -/
def System.runCoordinator : Nat → System → System
  | 0, σ => σ
  | steps + 1, σ =>
    match σ.step .coordinator with
    | none => σ
    | some σ' => System.runCoordinator steps σ'

/-- The number of statements the signalling pass of `ResumeThreads` executes from the
assertion on record `i` to the end of its loop, `remaining` records being left and none of
them Runnable: assert, lock, load, unlock for each, and a signal for each Suspended one. -/
def passSteps (states : Nat → ThreadState) : Nat → Nat → Nat
  | _, 0 => 1
  | i, remaining + 1 =>
    (if states i = .kSuspended then 5 else 4) + passSteps states (i + 1) remaining

/-- A process whose `size` registered threads have the given states and are all outside
the calls, with no mutex held. -/
def System.quiescent (size : Nat) (states : Nat → ThreadState) (gSuspensionRequested : Bool)
    (coordinator : CoordinatorPc) (aborted : Bool) : System :=
  { gSuspensionRequested := gSuspensionRequested
    size := size
    threads := fun i => { state := states i, suspendMutex := .free, pc := .idle }
    coordinator := coordinator
    aborted := aborted }

/-- The suspend/resume round trip of one Runnable thread: `parkSchedule`, then the woken
thread leaves the poll and `ResumeThreads` returns. -/
def roundTripSchedule : List Action :=
  parkSchedule ++
  [ .mutator 0,                    -- pthread_cond_wait takes the mutex again and returns
    .mutator 0, .mutator 0,        -- guard: Suspended → Runnable
    .mutator 0,                    -- unlock, the poll returns
    .coordinator, .coordinator ]   -- scan: thread 0 is Runnable; ResumeThreads returns

/-! ## Theorems -/

/-! ### The coordinator's scans -/

theorem allThreadsFrom_true (Check : ThreadData → Bool) (registry : ThreadRegistry)
    (remaining i : Nat) (c : Coordinator)
    (h : ∀ j, j < remaining → Check ⟨i + j, registry.stateAt (c.clock + j) (i + j)⟩ = true) :
    allThreadsFrom Check registry remaining i c = (true, { c with clock := c.clock + remaining }) := by
  induction remaining generalizing i c with
  | zero => simp [allThreadsFrom]
  | succ k ih =>
    have h0 := h 0 (Nat.succ_pos k)
    simp only [Nat.add_zero] at h0
    simp only [allThreadsFrom, Coordinator.load, h0, Bool.not_true, Bool.false_eq_true, if_false]
    rw [ih (i + 1) { c with clock := c.clock + 1 } (by
      intro j hj
      have := h (j + 1) (by omega)
      simpa [Nat.add_assoc, Nat.add_comm 1 j] using this)]
    simp only [Nat.add_assoc, Nat.add_comm 1 k]

theorem allThreadsFrom_frame (Check : ThreadData → Bool) (registry : ThreadRegistry)
    (remaining i : Nat) (c : Coordinator) :
    (allThreadsFrom Check registry remaining i c).2.gSuspensionRequested = c.gSuspensionRequested ∧
    (allThreadsFrom Check registry remaining i c).2.trace = c.trace ∧
    c.clock ≤ (allThreadsFrom Check registry remaining i c).2.clock := by
  induction remaining generalizing i c with
  | zero => simp [allThreadsFrom]
  | succ k ih =>
    simp only [allThreadsFrom, Coordinator.load]
    split_ifs
    · simp
    · obtain ⟨h1, h2, h3⟩ := ih (i + 1) { c with clock := c.clock + 1 }
      refine ⟨h1, h2, ?_⟩
      simp only at h3
      omega

theorem allThreadsFrom_sound (Check : ThreadData → Bool) (registry : ThreadRegistry)
    (remaining i : Nat) (c : Coordinator)
    (h : (allThreadsFrom Check registry remaining i c).1 = true) :
    (allThreadsFrom Check registry remaining i c).2.clock = c.clock + remaining ∧
    ∀ j, j < remaining → Check ⟨i + j, registry.stateAt (c.clock + j) (i + j)⟩ = true := by
  induction remaining generalizing i c with
  | zero => simp [allThreadsFrom]
  | succ k ih =>
    simp only [allThreadsFrom, Coordinator.load] at h ⊢
    split_ifs at h ⊢ with hc
    obtain ⟨h1, h2⟩ := ih (i + 1) { c with clock := c.clock + 1 } h
    refine ⟨by simp only at h1; omega, ?_⟩
    intro j hj
    cases j with
    | zero => simpa using hc
    | succ j =>
      have := h2 j (by omega)
      simpa [Nat.add_assoc, Nat.add_comm 1 j] using this

theorem spinUntilAllThreads_returned (Check : ThreadData → Bool) (registry : ThreadRegistry)
    (fuel : Nat) (c c' : Coordinator)
    (h : spinUntilAllThreads Check registry fuel c = .returned () c') :
    c'.gSuspensionRequested = c.gSuspensionRequested ∧
    (∃ t0, c.clock ≤ t0 ∧ c'.clock = t0 + registry.size ∧
      ∀ i, i < registry.size → Check ⟨i, registry.stateAt (t0 + i) i⟩ = true) ∧
    ∃ k, c'.trace = c.trace ++ List.replicate k Event.yield := by
  induction fuel generalizing c with
  | zero => simp [spinUntilAllThreads] at h
  | succ fuel ih =>
    simp only [spinUntilAllThreads, allThreads] at h
    obtain ⟨hf, ht, hc⟩ := allThreadsFrom_frame Check registry registry.size 0 c
    split_ifs at h with hdone
    · obtain ⟨h1, ⟨t0, h2, h3, h4⟩, ⟨k, h5⟩⟩ := ih _ h
      simp only [Coordinator.emit] at h1 h2 h5
      refine ⟨h1.trans hf, ⟨t0, by omega, h3, h4⟩, ⟨k + 1, ?_⟩⟩
      rw [h5, ht, List.replicate_succ, List.append_assoc]
      rfl
    · simp only [Bool.not_eq_true, Bool.not_eq_false'] at hdone
      simp only [Outcome.returned.injEq, true_and] at h
      subst h
      obtain ⟨h1, h2⟩ := allThreadsFrom_sound Check registry registry.size 0 c hdone
      refine ⟨hf, ⟨c.clock, le_refl _, h1, ?_⟩, ⟨0, by simp [ht]⟩⟩
      intro i hi
      simpa using h2 i hi

theorem spinUntilAllThreads_single (Check : ThreadData → Bool) (registry : ThreadRegistry)
    (fuel : Nat) (c : Coordinator)
    (h : ∀ i, i < registry.size → Check ⟨i, registry.stateAt (c.clock + i) i⟩ = true) :
    spinUntilAllThreads Check registry (fuel + 1) c
      = .returned () { c with clock := c.clock + registry.size } := by
  have := allThreadsFrom_true Check registry registry.size 0 c (by simpa using h)
  simp [spinUntilAllThreads, allThreads, this]

theorem spinUntilAllThreads_not_violation (Check : ThreadData → Bool) (registry : ThreadRegistry)
    (fuel : Nat) (c : Coordinator) :
    (spinUntilAllThreads Check registry fuel c).isViolation = false := by
  induction fuel generalizing c with
  | zero => rfl
  | succ fuel ih =>
    simp only [spinUntilAllThreads]
    split_ifs
    · exact ih _
    · rfl

theorem allThreadsFrom_false_clock (Check : ThreadData → Bool) (registry : ThreadRegistry)
    (remaining i : Nat) (c : Coordinator)
    (h : (allThreadsFrom Check registry remaining i c).1 = false) :
    c.clock + 1 ≤ (allThreadsFrom Check registry remaining i c).2.clock := by
  cases remaining with
  | zero => simp [allThreadsFrom] at h
  | succ k =>
    simp only [allThreadsFrom, Coordinator.load] at h ⊢
    split_ifs at h ⊢ with hc
    · exact le_refl _
    · exact (allThreadsFrom_frame Check registry k (i + 1) { c with clock := c.clock + 1 }).2.2

/-- The spin loop returns once the records stay in checked states: if every load from time
`T` on passes `Check`, fuel for the scans that can start before `T` and one more is
enough. -/
theorem spinUntilAllThreads_returns (Check : ThreadData → Bool) (registry : ThreadRegistry)
    (T : Nat) (hT : ∀ t i, T ≤ t → Check ⟨i, registry.stateAt t i⟩ = true)
    (fuel : Nat) (c : Coordinator) (hfuel : T ≤ c.clock + fuel) :
    ∃ c', spinUntilAllThreads Check registry (fuel + 1) c = .returned () c' := by
  induction fuel generalizing c with
  | zero =>
    exact ⟨_, spinUntilAllThreads_single Check registry 0 c (fun i _ => hT _ _ (by omega))⟩
  | succ k ih =>
    cases hd : (allThreadsFrom Check registry registry.size 0 c).1 with
    | true =>
      refine ⟨(allThreadsFrom Check registry registry.size 0 c).2, ?_⟩
      rw [spinUntilAllThreads]
      simp [allThreads, hd]
    | false =>
      have hclock := allThreadsFrom_false_clock Check registry registry.size 0 c hd
      obtain ⟨c', hc'⟩ := ih ((allThreadsFrom Check registry registry.size 0 c).2.emit .yield)
        (by simp only [Coordinator.emit]; omega)
      refine ⟨c', ?_⟩
      rw [spinUntilAllThreads]
      simp only [allThreads, hd, Bool.not_false, if_true]
      exact hc'

/-- Liveness of `SuspendThreads` in Part II: it returns, with enough fuel, when from some
load on every record reads Suspended or Native. -/
theorem SuspendThreads_returns (registry : ThreadRegistry) (c : Coordinator) (T : Nat)
    (hT : ∀ t i, T ≤ t → isSuspendedOrNative ⟨i, registry.stateAt t i⟩ = true) :
    ∃ c', SuspendThreads registry (T + 1) c = .returned () c' :=
  spinUntilAllThreads_returns isSuspendedOrNative registry T hT T _ (Nat.le_add_left _ _)

/-! ### The signalling pass -/

/-- The assertion of ThreadSuspensionUtils.cpp:85 passes exactly on a record that is not
Runnable. -/
theorem expectedContainsActual_native_suspended (s : ThreadState) :
    expectedContainsActual [.kNative, .kSuspended] s = true ↔ s ≠ .kRunnable := by
  cases s <;> simp [expectedContainsActual]

theorem expectedContainsActual_iff (expected : List ThreadState) (actual : ThreadState) :
    expectedContainsActual expected actual = true ↔ actual ∈ expected := by
  induction expected with
  | nil => simp [expectedContainsActual]
  | cons s rest ih =>
    simp only [expectedContainsActual, List.mem_cons]
    split_ifs with h
    · simp only [beq_iff_eq] at h
      simp [h]
    · simp only [beq_iff_eq] at h
      rw [ih]
      constructor
      · exact Or.inr
      · rintro (h' | h')
        · exact absurd h'.symm h
        · exact h'

/-- The effects of one iteration of the loop on record `i` whose state, read under the
lock, is `s`. -/
theorem signalThreadsFrom_succ_ok (registry : ThreadRegistry) (remaining i : Nat)
    (c : Coordinator) (h : registry.stateAt c.clock i ≠ .kRunnable) :
    signalThreadsFrom registry (remaining + 1) i c =
      signalThreadsFrom registry remaining (i + 1)
        { c with
          clock := c.clock + 2
          trace := c.trace ++ signallingEvents i [registry.stateAt (c.clock + 1) i] } := by
  have ha := (expectedContainsActual_native_suspended _).mpr h
  simp only [signalThreadsFrom, Coordinator.load, AssertThreadStates, RuntimeAssert, ha, if_true,
    Outcome.andThen, Coordinator.emit, signallingEvents]
  congr 1
  cases registry.stateAt (c.clock + 1) i <;> simp

theorem signalThreadsFrom_succ_fail (registry : ThreadRegistry) (remaining i : Nat)
    (c : Coordinator) (h : registry.stateAt c.clock i = .kRunnable) :
    signalThreadsFrom registry (remaining + 1) i c =
      .violation (.unexpectedStateOneOf [.kNative, .kSuspended] .kRunnable)
        { c with clock := c.clock + 1 } := by
  simp [signalThreadsFrom, Coordinator.load, AssertThreadStates, RuntimeAssert, h,
    expectedContainsActual, Outcome.andThen]

theorem signallingEvents_cons (i : Nat) (s : ThreadState) (rest : List ThreadState) :
    signallingEvents i (s :: rest) = signallingEvents i [s] ++ signallingEvents (i + 1) rest := by
  simp [signallingEvents]

theorem signalThreadsFrom_static (registry : ThreadRegistry) (l : List ThreadState) (i : Nat)
    (c : Coordinator) (hreg : ∀ t j, registry.stateAt t (i + j) = l.getD j .kRunnable) :
    signalThreadsFrom registry l.length i c =
      if ThreadState.kRunnable ∈ l then
        .violation (.unexpectedStateOneOf [.kNative, .kSuspended] .kRunnable)
          { c with
            clock := c.clock + 2 * (l.takeWhile (fun s => s != .kRunnable)).length + 1
            trace := c.trace ++ signallingEvents i (l.takeWhile (fun s => s != .kRunnable)) }
      else
        .returned ()
          { c with clock := c.clock + 2 * l.length, trace := c.trace ++ signallingEvents i l } := by
  induction l generalizing i c with
  | nil => simp [signalThreadsFrom, signallingEvents]
  | cons s rest ih =>
    have h0 : ∀ t, registry.stateAt t i = s := fun t => by simpa using hreg t 0
    have hrest : ∀ t j, registry.stateAt t (i + 1 + j) = rest.getD j .kRunnable := fun t j => by
      have := hreg t (j + 1)
      simpa [Nat.add_assoc, Nat.add_comm 1 j] using this
    by_cases hs : s = .kRunnable
    · subst hs
      rw [List.length_cons, signalThreadsFrom_succ_fail registry _ i c (h0 _)]
      simp [signallingEvents]
    · have hne : (s != ThreadState.kRunnable) = true := by simpa using hs
      have hmem : ThreadState.kRunnable ∈ s :: rest ↔ ThreadState.kRunnable ∈ rest := by
        simp [List.mem_cons, Ne.symm hs]
      rw [List.length_cons, signalThreadsFrom_succ_ok registry _ i c (by rw [h0]; exact hs),
        ih (i + 1) _ hrest, h0]
      simp only [hmem, List.takeWhile_cons, hne, if_true, List.length_cons]
      rw [signallingEvents_cons i s rest, signallingEvents_cons i s (List.takeWhile _ rest)]
      simp only [List.append_assoc]
      split_ifs
      · congr 2
        omega
      · congr 2
        omega

theorem signallingEvents_kinds (i : Nat) (l : List ThreadState) :
    ∀ e ∈ signallingEvents i l, ∃ j, e = Event.lock j ∨ e = Event.condSignal j ∨ e = Event.unlock j := by
  induction l generalizing i with
  | nil => simp [signallingEvents]
  | cons s rest ih =>
    intro e he
    simp only [signallingEvents, List.cons_append, List.mem_cons, List.mem_append] at he
    rcases he with rfl | he | rfl | he
    · exact ⟨i, Or.inl rfl⟩
    · split_ifs at he
      · simp only [List.mem_singleton] at he
        exact ⟨i, Or.inr (Or.inl he)⟩
      · simp at he
    · exact ⟨i, Or.inr (Or.inr rfl)⟩
    · exact ih (i + 1) e he

theorem signalThreadsFrom_returned (registry : ThreadRegistry) (remaining i : Nat)
    (c c' : Coordinator) (h : signalThreadsFrom registry remaining i c = .returned () c') :
    c'.gSuspensionRequested = c.gSuspensionRequested ∧ c'.clock = c.clock + 2 * remaining ∧
    ∃ es, c'.trace = c.trace ++ es ∧
      ∀ e ∈ es, ∃ j, e = Event.lock j ∨ e = Event.condSignal j ∨ e = Event.unlock j := by
  induction remaining generalizing i c with
  | zero =>
    simp only [signalThreadsFrom, Outcome.returned.injEq, true_and] at h
    subst h
    exact ⟨rfl, rfl, [], by simp, by simp⟩
  | succ k ih =>
    by_cases hs : registry.stateAt c.clock i = .kRunnable
    · rw [signalThreadsFrom_succ_fail registry k i c hs] at h
      simp at h
    · rw [signalThreadsFrom_succ_ok registry k i c hs] at h
      obtain ⟨h1, h2, es, h3, h4⟩ := ih _ _ h
      refine ⟨h1, by simp only at h2; omega,
        signallingEvents i [registry.stateAt (c.clock + 1) i] ++ es,
        by rw [h3, List.append_assoc], ?_⟩
      intro e he
      rcases List.mem_append.mp he with he | he
      · exact signallingEvents_kinds _ _ e he
      · exact h4 e he

theorem signalThreadsFrom_returns (registry : ThreadRegistry) (remaining i : Nat)
    (c : Coordinator)
    (h : ∀ j, j < remaining → registry.stateAt (c.clock + 2 * j) (i + j) ≠ .kRunnable) :
    ∃ c', signalThreadsFrom registry remaining i c = .returned () c' := by
  induction remaining generalizing i c with
  | zero => exact ⟨c, rfl⟩
  | succ k ih =>
    have h0 := h 0 (Nat.succ_pos k)
    simp only [Nat.mul_zero, Nat.add_zero] at h0
    rw [signalThreadsFrom_succ_ok registry k i c h0]
    apply ih
    intro j hj
    have := h (j + 1) (by omega)
    have e1 : c.clock + 2 * (j + 1) = c.clock + 2 + 2 * j := by omega
    have e2 : i + (j + 1) = i + 1 + j := by omega
    rw [e1, e2] at this
    exact this

theorem signallingEvents_lock_mem (i : Nat) (l : List ThreadState) (j : Nat) :
    Event.lock j ∈ signallingEvents i l ↔ i ≤ j ∧ j < i + l.length := by
  induction l generalizing i with
  | nil => simp [signallingEvents]
  | cons s rest ih =>
    simp only [signallingEvents, List.cons_append, List.mem_cons, List.mem_append, ih,
      List.length_cons, Event.lock.injEq, reduceCtorEq, false_or]
    split_ifs <;> simp <;> omega

theorem signallingEvents_condSignal_mem (i : Nat) (l : List ThreadState) (j : Nat) :
    Event.condSignal j ∈ signallingEvents i l ↔ i ≤ j ∧ l[j - i]? = some .kSuspended := by
  induction l generalizing i with
  | nil => simp [signallingEvents]
  | cons s rest ih =>
    simp only [signallingEvents, List.cons_append, List.mem_cons, List.mem_append, ih,
      reduceCtorEq, false_or]
    by_cases hji : j = i
    · subst hji
      split_ifs with hs <;> simp [hs]
    · have h1 : (i ≤ j) ↔ (i + 1 ≤ j) := by omega
      have h2 : ∀ h : i + 1 ≤ j, j - i = (j - (i + 1)) + 1 := by omega
      constructor
      · rintro (h | h)
        · split_ifs at h <;> simp at h
          exact absurd h hji
        · exact ⟨by omega, by rw [h2 h.1, List.getElem?_cons_succ]; exact h.2⟩
      · rintro ⟨h, h'⟩
        right
        have h3 := h1.mp h
        exact ⟨h3, by rw [h2 h3, List.getElem?_cons_succ] at h'; exact h'⟩

/-! ### The calling thread's code -/

theorem SwitchThreadStateAux_same (requested : Nat → Bool) (fuel : Nat) (m : Mutator) :
    SwitchThreadStateAux requested (fuel + 1) m m.state
      = .violation (.illegalSwitch m.state m.state) m := by
  simp [SwitchThreadStateAux, RuntimeAssert, isStateSwitchAllowed, Outcome.andThen]

theorem SwitchThreadStateAux_plain (requested : Nat → Bool) (fuel : Nat) (m : Mutator)
    (newState : ThreadState) (hne : newState ≠ m.state)
    (hpoll : ¬ (m.state = .kNative ∧ newState = .kRunnable)) :
    SwitchThreadStateAux requested (fuel + 1) m newState
      = .returned m.state (m.setState newState) := by
  have hne' : ¬ m.state = newState := fun h => hne h.symm
  simp [SwitchThreadStateAux, RuntimeAssert, isStateSwitchAllowed, Outcome.andThen, hne', hpoll]

theorem poll_not_requested (requested : Nat → Bool) (fuel : Nat) (m : Mutator)
    (h : requested m.loads = false) :
    SuspendCurrentThreadIfRequestedAux requested (fuel + 1) m
      = .returned () { m with loads := m.loads + 1 } := by
  simp [SuspendCurrentThreadIfRequestedAux, IsThreadSuspensionRequested, h]

theorem poll_cleared (requested : Nat → Bool) (fuel : Nat) (m : Mutator)
    (h1 : requested m.loads = true) (h2 : requested (m.loads + 1) = false) :
    SuspendCurrentThreadIfRequestedAux requested (fuel + 1) m
      = .returned () ({ m with loads := m.loads + 2 }.lockSuspendMutex.unlockSuspendMutex) := by
  simp [SuspendCurrentThreadIfRequestedAux, IsThreadSuspensionRequested, h1, h2,
    Mutator.lockSuspendMutex, Outcome.andThen, Mutator.unlockSuspendMutex]

theorem poll_parks (requested : Nat → Bool) (fuel : Nat) (m : Mutator)
    (h1 : requested m.loads = true) (h2 : requested (m.loads + 1) = true)
    (hs : m.state = .kRunnable ∨ m.state = .kNative) :
    SuspendCurrentThreadIfRequestedAux requested (fuel + 2) m = .returned () m.afterPark := by
  obtain ⟨⟨id, s⟩, loads, trace⟩ := m
  simp only [Mutator.state] at hs h1 h2
  rcases hs with rfl | rfl <;>
  simp [SuspendCurrentThreadIfRequestedAux, SwitchThreadStateAux, IsThreadSuspensionRequested,
    ThreadStateGuard.enter, ThreadStateGuard.exit,
    h1, h2, Mutator.lockSuspendMutex, Outcome.andThen, Mutator.unlockSuspendMutex,
    AssertThreadStates, expectedContainsActual, RuntimeAssert, isStateSwitchAllowed,
    Mutator.state, Mutator.setState, Mutator.condWait, Mutator.afterPark]

/-- With fuel for two nested calls, a poll by a Runnable or Native thread returns. -/
theorem poll_returns (requested : Nat → Bool) (fuel : Nat) (m : Mutator)
    (hs : m.state = .kRunnable ∨ m.state = .kNative) :
    SuspendCurrentThreadIfRequestedAux requested (fuel + 2) m
      = .returned () (m.afterPoll requested) := by
  unfold Mutator.afterPoll
  cases h1 : requested m.loads
  · simpa using poll_not_requested requested (fuel + 1) m h1
  · cases h2 : requested (m.loads + 1)
    · simpa using poll_cleared requested (fuel + 1) m h1 h2
    · simpa using poll_parks requested fuel m h1 h2 hs

/-- With fuel for three nested calls the result of a legal switch does not depend on the
fuel. -/
theorem SwitchThreadStateAux_returns (requested : Nat → Bool) (fuel : Nat) (m : Mutator)
    (newState : ThreadState) (hne : newState ≠ m.state) :
    SwitchThreadStateAux requested (fuel + 3) m newState
      = .returned m.state
          ((if m.state = .kNative ∧ newState = .kRunnable then m.afterPoll requested
            else m).setState newState) := by
  by_cases hpoll : m.state = .kNative ∧ newState = .kRunnable
  · have hp := poll_returns requested fuel m (Or.inr hpoll.1)
    simp [SwitchThreadStateAux, RuntimeAssert, isStateSwitchAllowed, Outcome.andThen, hpoll, hp]
  · rw [SwitchThreadStateAux_plain requested (fuel + 2) m newState hne hpoll, if_neg hpoll]

theorem Mutator.afterPoll_state (requested : Nat → Bool) (m : Mutator) :
    (m.afterPoll requested).threadData = m.threadData := by
  unfold Mutator.afterPoll Mutator.afterPark
  split_ifs <;>
    simp [Mutator.setState, Mutator.lockSuspendMutex, Mutator.unlockSuspendMutex,
      Mutator.condWait, Mutator.state]

/-- C1: for every thread in state `s` and every target `newState ≠ s`, whatever the loads
of the flag return, `SwitchThreadState` returns `s` and leaves the state of the same thread
equal to `newState`. This covers the six transitions, Native → Runnable with the suspension
requested included: there the call parks in the poll and, once `pthread_cond_wait` has
returned, stores Runnable. -/
theorem SwitchThreadState_returns_previous (requested : Nat → Bool) (m : Mutator)
    (newState : ThreadState) (h : newState ≠ m.state) :
    ∃ m', SwitchThreadState requested m newState = .returned m.state m' ∧
      m'.state = newState ∧ m'.threadData.id = m.threadData.id := by
  refine ⟨_, SwitchThreadStateAux_returns requested 1 m newState h, ?_, ?_⟩
  · simp [Mutator.setState, Mutator.state]
  · split_ifs <;> simp [Mutator.setState, Mutator.afterPoll_state]

/-- C2: `SwitchThreadState` ends in an invariant violation if and only if `newState` is the
thread's current state, whatever the loads of the flag return; and the rejected call leaves
the machine as it was (no state written, no effect performed). -/
theorem SwitchThreadState_violation_iff (requested : Nat → Bool) (m : Mutator)
    (newState : ThreadState) :
    ((SwitchThreadState requested m newState).isViolation = true ↔ newState = m.state) ∧
    (newState = m.state →
      SwitchThreadState requested m newState
        = .violation (.illegalSwitch m.state newState) m) := by
  have hsame : newState = m.state →
      SwitchThreadState requested m newState
        = .violation (.illegalSwitch m.state newState) m := by
    intro h
    subst h
    exact SwitchThreadStateAux_same requested 3 m
  refine ⟨⟨fun hv => ?_, fun h => by rw [hsame h]; rfl⟩, hsame⟩
  by_contra hne
  have := SwitchThreadStateAux_returns requested 1 m newState hne
  unfold SwitchThreadState callDepth at hv
  rw [this] at hv
  exact absurd hv (by simp [Outcome.isViolation])

/-- C6: in every thread state, when the first load of the flag returns false the poll
returns having done that load only: the thread's record and the trace of effects are
unchanged, so no lock, no wait, no store to the state and no store to the flag. -/
theorem SuspendCurrentThreadIfRequested_not_requested (requested : Nat → Bool) (m : Mutator)
    (h : requested m.loads = false) :
    SuspendCurrentThreadIfRequested requested m
      = .returned () { m with loads := m.loads + 1 } :=
  poll_not_requested requested 3 m h

theorem suspendMutexHeld_append (thread : Nat) (before : Bool) (l₁ l₂ : List Event) :
    suspendMutexHeld thread before (l₁ ++ l₂)
      = suspendMutexHeld thread (suspendMutexHeld thread before l₁) l₂ := by
  simp [suspendMutexHeld, List.foldl_append]

/-- C7: a Runnable or Native thread whose poll loads the flag set twice (the second time
under its suspend lock) performs exactly: lock, store Suspended, wait while Suspended,
store the state it had before the call, unlock. So it is Suspended while parked, returns
in its previous state with the lock released, and does not store to the flag. -/
theorem SuspendCurrentThreadIfRequested_parks (requested : Nat → Bool) (m : Mutator)
    (hstate : m.state = .kRunnable ∨ m.state = .kNative)
    (h1 : requested m.loads = true) (h2 : requested (m.loads + 1) = true) :
    ∃ m' es, SuspendCurrentThreadIfRequested requested m = .returned () m' ∧
      m'.trace = m.trace ++ es ∧
      es = [ Event.lock m.threadData.id,
             Event.setState m.threadData.id .kSuspended,
             Event.condWait m.threadData.id .kSuspended,
             Event.setState m.threadData.id m.state,
             Event.unlock m.threadData.id ] ∧
      m'.state = m.state ∧
      (∀ before, suspendMutexHeld m.threadData.id before m'.trace = false) ∧
      (∀ v, Event.storeRequested v ∉ es) := by
  have htrace : m.afterPark.trace = m.trace ++
        [ Event.lock m.threadData.id,
          Event.setState m.threadData.id .kSuspended,
          Event.condWait m.threadData.id .kSuspended,
          Event.setState m.threadData.id m.state,
          Event.unlock m.threadData.id ] := by
    simp [Mutator.afterPark, Mutator.setState, Mutator.lockSuspendMutex,
      Mutator.unlockSuspendMutex, Mutator.condWait, Mutator.state]
  refine ⟨m.afterPark, _, poll_parks requested 2 m h1 h2 hstate, htrace, rfl, ?_, ?_, ?_⟩
  · simp [Mutator.afterPark, Mutator.setState, Mutator.lockSuspendMutex,
      Mutator.unlockSuspendMutex, Mutator.condWait, Mutator.state]
  · intro before
    rw [htrace, suspendMutexHeld_append]
    simp [suspendMutexHeld]
  · intro v
    simp

/-- C8: neither form of `AssertThreadState` changes the machine it runs on. The
single-state form fails iff the current state differs from `expected`, the list form fails
iff the current state is not in the list (always for the empty list), and the single-state
form fails exactly when the list form on the one-element list does. -/
theorem AssertThreadState_contract (m : Mutator) (expected : ThreadState)
    (expectedList : List ThreadState) :
    (AssertThreadState m.threadData expected m
      = if m.state = expected then .returned () m
        else .violation (.unexpectedState expected m.state) m) ∧
    (AssertThreadStates m.threadData expectedList m
      = if m.state ∈ expectedList then .returned () m
        else .violation (.unexpectedStateOneOf expectedList m.state) m) ∧
    (AssertThreadStates m.threadData [] m).isViolation = true ∧
    ((AssertThreadState m.threadData expected m).isViolation
      = (AssertThreadStates m.threadData [expected] m).isViolation) := by
  refine ⟨?_, ?_, ?_, ?_⟩
  · simp [AssertThreadState, RuntimeAssert, Mutator.state]
  · simp only [AssertThreadStates, RuntimeAssert, Mutator.state]
    by_cases h : m.threadData.state ∈ expectedList
    · simp [h, (expectedContainsActual_iff _ _).mpr h]
    · have : expectedContainsActual expectedList m.threadData.state = false := by
        cases hc : expectedContainsActual expectedList m.threadData.state
        · rfl
        · exact absurd ((expectedContainsActual_iff _ _).mp hc) h
      simp [h, this]
  · simp [AssertThreadStates, RuntimeAssert, expectedContainsActual, Outcome.isViolation]
  · simp only [AssertThreadState, AssertThreadStates, RuntimeAssert, expectedContainsActual]
    by_cases h : m.threadData.state = expected
    · simp [h, Outcome.isViolation]
    · have h' : ¬ expected = m.threadData.state := fun e => h e.symm
      simp [h, h', Outcome.isViolation]

/-! ### The coordinator's contracts -/

/-- C4: when `SuspendThreads` returns the flag is set and its last scan (the loads `t0`,
..., `t0 + size - 1`) has read every record Suspended or Native; its only effects are the
store to the flag and yields, so it writes no thread state; it never fails an assertion.
If the first scan reads every record Suspended or Native (vacuously for the empty
registry), it returns after that scan, without yielding. -/
theorem SuspendThreads_contract (registry : ThreadRegistry) (c : Coordinator) :
    (∀ fuel c', SuspendThreads registry fuel c = .returned () c' →
      c'.gSuspensionRequested = true ∧
      (∃ t0, c.clock ≤ t0 ∧ c'.clock = t0 + registry.size ∧
        ∀ i, i < registry.size →
          isSuspendedOrNative ⟨i, registry.stateAt (t0 + i) i⟩ = true) ∧
      (∃ k, c'.trace = c.trace ++ Event.storeRequested true :: List.replicate k Event.yield)) ∧
    (∀ fuel, (SuspendThreads registry fuel c).isViolation = false) ∧
    ((∀ i, i < registry.size →
        isSuspendedOrNative ⟨i, registry.stateAt (c.clock + i) i⟩ = true) →
      ∀ fuel, SuspendThreads registry (fuel + 1) c
        = .returned ()
            { gSuspensionRequested := true
              clock := c.clock + registry.size
              trace := c.trace ++ [Event.storeRequested true] }) := by
  refine ⟨?_, ?_, ?_⟩
  · intro fuel c' h
    obtain ⟨h1, h2, k, h3⟩ := spinUntilAllThreads_returned _ _ _ _ _ h
    refine ⟨h1, h2, k, ?_⟩
    rw [h3]
    simp [Coordinator.storeRequested]
  · intro fuel
    exact spinUntilAllThreads_not_violation _ _ _ _
  · intro h fuel
    exact spinUntilAllThreads_single _ _ _ (c.storeRequested true) h

/-- C5: when `ResumeThreads` returns the flag is clear and its last scan has read every
record Runnable or Native, none Suspended; its effects are the store to the flag, locks,
signals, unlocks and yields, so it writes no thread state. It does return when the
assertions of the signalling pass read no Runnable record and the first scan after the pass
reads every record Runnable or Native. -/
theorem ResumeThreads_contract (registry : ThreadRegistry) (c : Coordinator) :
    (∀ fuel c', ResumeThreads registry fuel c = .returned () c' →
      c'.gSuspensionRequested = false ∧
      (∃ t0, c.clock ≤ t0 ∧ c'.clock = t0 + registry.size ∧
        ∀ i, i < registry.size →
          isRunnableOrNative ⟨i, registry.stateAt (t0 + i) i⟩ = true ∧
          registry.stateAt (t0 + i) i ≠ .kSuspended) ∧
      (∃ es, c'.trace = c.trace ++ Event.storeRequested false :: es ∧
        ∀ e ∈ es, (∃ j, e = Event.lock j ∨ e = Event.condSignal j ∨ e = Event.unlock j) ∨
          e = Event.yield)) ∧
    ((∀ i, i < registry.size → registry.stateAt (c.clock + 2 * i) i ≠ .kRunnable) →
      (∀ i, i < registry.size →
        isRunnableOrNative ⟨i, registry.stateAt (c.clock + 2 * registry.size + i) i⟩ = true) →
      ∀ fuel, ∃ c', ResumeThreads registry (fuel + 1) c = .returned () c' ∧
        c'.clock = c.clock + 3 * registry.size) := by
  refine ⟨?_, ?_⟩
  · intro fuel c' h
    unfold ResumeThreads ResumeThreads.signallingPass at h
    cases hp : signalThreadsFrom registry registry.size 0 (c.storeRequested false) with
    | outOfFuel => simp [hp, Outcome.andThen] at h
    | violation why st => simp [hp, Outcome.andThen] at h
    | returned u c₁ =>
      simp only [hp, Outcome.andThen] at h
      obtain ⟨p1, p2, es, p3, p4⟩ := signalThreadsFrom_returned _ _ _ _ _ hp
      obtain ⟨s1, ⟨t0, s2, s3, s4⟩, k, s5⟩ := spinUntilAllThreads_returned _ _ _ _ _ h
      refine ⟨by rw [s1, p1]; rfl, ⟨t0, ?_, s3, ?_⟩, es ++ List.replicate k Event.yield, ?_, ?_⟩
      · simp only [Coordinator.storeRequested] at p2
        omega
      · intro i hi
        refine ⟨s4 i hi, ?_⟩
        have := s4 i hi
        intro hsus
        simp [isRunnableOrNative, hsus] at this
      · rw [s5, p3]
        simp [Coordinator.storeRequested]
      · intro e he
        rcases List.mem_append.mp he with he | he
        · exact Or.inl (p4 e he)
        · exact Or.inr (List.eq_of_mem_replicate he)
  · intro hpass hscan fuel
    unfold ResumeThreads ResumeThreads.signallingPass
    obtain ⟨c₁, hc₁⟩ := signalThreadsFrom_returns registry registry.size 0
      (c.storeRequested false) (by simpa [Coordinator.storeRequested] using hpass)
    obtain ⟨-, p2, -⟩ := signalThreadsFrom_returned _ _ _ _ _ hc₁
    simp only [Coordinator.storeRequested] at p2
    rw [hc₁]
    simp only [Outcome.andThen]
    rw [spinUntilAllThreads_single _ _ _ _ (by rw [p2]; exact hscan)]
    exact ⟨_, rfl, by simp only; omega⟩

/-- C10: over a registry whose states do not change, the signalling pass first clears the
flag and then visits the records in order. It fails iff some record is Runnable, at the
first such record and after the effects for the records before it; otherwise it returns
having locked and unlocked every record and signalled exactly the Suspended ones. -/
theorem ResumeThreads_signallingPass_static (states : List ThreadState) (c : Coordinator) :
    ResumeThreads.signallingPass (ThreadRegistry.static states) c =
      (if ThreadState.kRunnable ∈ states then
        .violation (.unexpectedStateOneOf [.kNative, .kSuspended] .kRunnable)
          { gSuspensionRequested := false
            clock := c.clock + 2 * (states.takeWhile (fun s => s != .kRunnable)).length + 1
            trace := c.trace ++ Event.storeRequested false ::
              signallingEvents 0 (states.takeWhile (fun s => s != .kRunnable)) }
      else
        .returned ()
          { gSuspensionRequested := false
            clock := c.clock + 2 * states.length
            trace := c.trace ++ Event.storeRequested false :: signallingEvents 0 states }) ∧
    (∀ (l : List ThreadState) (i : Nat), Event.lock i ∈ signallingEvents 0 l ↔ i < l.length) ∧
    (∀ (l : List ThreadState) (i : Nat),
      Event.condSignal i ∈ signallingEvents 0 l ↔ l[i]? = some .kSuspended) := by
  refine ⟨?_, ?_, ?_⟩
  · unfold ResumeThreads.signallingPass
    have := signalThreadsFrom_static (ThreadRegistry.static states) states 0
      (c.storeRequested false) (by intro t j; simp [ThreadRegistry.static])
    simp only [ThreadRegistry.static] at this ⊢
    rw [this]
    simp [Coordinator.storeRequested]
  · intro l i
    simpa using signallingEvents_lock_mem 0 l i
  · intro l i
    simpa using signallingEvents_condSignal_mem 0 l i

/-! ### The invariant is preserved -/

theorem committed_holdsMutex (pc : Pc) (h : pc.committed = true) : pc.holdsMutex = true := by
  cases pc <;> simp [Pc.committed] at h <;> simp [Pc.holdsMutex]
  all_goals (rename_i c; cases c <;> simp_all [Pc.committed, Pc.holdsMutex])

theorem hasLocked_of_hasSignalled (c : CoordinatorPc) (i : Nat) (h : c.hasSignalled i = true) :
    c.hasLocked i = true := by
  cases c <;> simp_all [CoordinatorPc.hasSignalled, CoordinatorPc.hasLocked]
  all_goals omega

theorem hasSignalled_eq_false (c : CoordinatorPc) (i : Nat) (h : c.hasLocked i = false) :
    c.hasSignalled i = false := by
  cases hs : c.hasSignalled i
  · rfl
  · rw [hasLocked_of_hasSignalled c i hs] at h
    exact absurd h (by decide)

theorem Thread.step_threadInvariant (flag : Bool) (c : CoordinatorPc) (i : Nat) (t t' : Thread)
    (hstep : t.step flag = some t') (h : ThreadInvariant flag c i t) :
    ThreadInvariant flag c i t' := by
  obtain ⟨state, mutex, pc⟩ := t
  obtain ⟨hwf, hown, hco, hnc, hnp⟩ := h
  have hls := hasSignalled_eq_false c i
  cases pc <;> simp only [Thread.step] at hstep
  all_goals (try split_ifs at hstep)
  all_goals (try simp at hstep)
  all_goals (try subst hstep)
  all_goals (try (rename SwitchCaller => sc; rcases sc with _ | _ | _))
  all_goals (try (rename PollCaller => pc; rcases pc with _ | ⟨o, n, _ | _ | _⟩))
  all_goals constructor
  all_goals (simp_all [Pc.wellFormed, Pc.holdsMutex, Pc.committed, Pc.parked, SwitchCaller.resume,
    PollCaller.resume, PollCaller.outermost, isStateSwitchAllowed, expectedContainsActual])

theorem Thread.wake_threadInvariant (flag : Bool) (c : CoordinatorPc) (i : Nat) (t : Thread)
    (h : ThreadInvariant flag c i t) : ThreadInvariant flag c i t.wake := by
  obtain ⟨state, mutex, pc⟩ := t
  obtain ⟨hwf, hown, hco, hnc, hnp⟩ := h
  cases pc <;> constructor <;>
    simp_all [Thread.wake, Pc.wellFormed, Pc.holdsMutex, Pc.committed, Pc.parked]

theorem Thread.wake_parked (t : Thread) : t.wake.pc.parked = false := by
  obtain ⟨state, mutex, pc⟩ := t
  cases pc <;> simp [Thread.wake, Pc.parked]

theorem Thread.call_threadInvariant (flag : Bool) (c : CoordinatorPc) (i : Nat) (t : Thread) (pc : Pc)
    (hpc : (∃ newState, pc = .switchEntry newState .mutator) ∨
      pc = .pollEntry .mutator)
    (h : ThreadInvariant flag c i t) : ThreadInvariant flag c i { t with pc := pc } := by
  obtain ⟨hwf, hown, hco, hnc, hnp⟩ := h
  rcases hpc with ⟨n, rfl⟩ | rfl <;> constructor <;>
    simp_all [Pc.wellFormed, Pc.holdsMutex, Pc.committed, Pc.parked, PollCaller.outermost]

/-- The invariant of a thread the coordinator's step does not touch carries over when the
coordinator's position and the flag change compatibly. -/
theorem ThreadInvariant.mono (flag flag' : Bool) (c c' : CoordinatorPc) (i : Nat) (t : Thread)
    (h : ThreadInvariant flag c i t)
    (hholds : c'.holds i = true → c.holds i = true)
    (hlocked : flag' = false → c'.hasLocked i = true → flag = false ∧ c.hasLocked i = true)
    (hsignalled : flag' = false → c'.hasSignalled i = true →
      flag = false ∧ c.hasSignalled i = true) :
    ThreadInvariant flag' c' i t := by
  obtain ⟨hwf, hown, hco, hnc, hnp⟩ := h
  exact ⟨hwf, hown, fun h => hco (hholds h),
    fun hf hl => hnc (hlocked hf hl).1 (hlocked hf hl).2,
    fun hf hs => hnp (hsignalled hf hs).1 (hsignalled hf hs).2⟩

theorem System.coordinatorStep_invariant (σ σ' : System) (hstep : σ.coordinatorStep = some σ')
    (h : σ.Invariant) : σ'.Invariant := by
  obtain ⟨flag, size, threads, c, ab⟩ := σ
  unfold System.Invariant at h ⊢
  simp only at h
  cases c with
  | resumeLock i =>
    simp only [System.coordinatorStep] at hstep
    split_ifs at hstep with hfree
    simp at hstep
    subst hstep
    intro j hj
    simp only [System.setThread] at hj ⊢
    have hjinv := h j hj
    by_cases hji : j = i
    · subst hji
      simp only [Function.update_same]
      obtain ⟨hwf, hown, hco, hnc, hnp⟩ := hjinv
      have hnh : (threads j).pc.holdsMutex = false := by
        cases hh : (threads j).pc.holdsMutex
        · rfl
        · rw [hown hh] at hfree
          exact absurd hfree (by decide)
      refine ⟨hwf, ?_, ?_, ?_, ?_⟩
      · simp [hnh]
      · simp
      · intro _ _
        cases hc : (threads j).pc.committed
        · rfl
        · rw [committed_holdsMutex _ hc] at hnh
          exact absurd hnh (by decide)
      · simp [CoordinatorPc.hasSignalled]
    · rw [Function.update_noteq hji]
      refine hjinv.mono _ _ _ _ _ _ ?_ ?_ ?_ <;>
        simp_all [CoordinatorPc.holds, CoordinatorPc.hasLocked, CoordinatorPc.hasSignalled] <;>
        omega
  | resumeCheck i =>
    simp only [System.coordinatorStep] at hstep
    split_ifs at hstep with hsusp
    · simp at hstep
      subst hstep
      intro j hj
      simp only at hj ⊢
      have hjinv := h j hj
      refine hjinv.mono _ _ _ _ _ _ ?_ ?_ ?_ <;>
        simp_all [CoordinatorPc.holds, CoordinatorPc.hasLocked, CoordinatorPc.hasSignalled]
    · simp at hstep
      subst hstep
      intro j hj
      simp only at hj ⊢
      have hjinv := h j hj
      by_cases hji : j = i
      · subst hji
        obtain ⟨hwf, hown, hco, hnc, hnp⟩ := hjinv
        refine ⟨hwf, hown, ?_, ?_, ?_⟩
        · intro _
          exact hco (by simp [CoordinatorPc.holds])
        · intro hf _
          exact hnc hf (by simp [CoordinatorPc.hasLocked])
        · intro _ _
          cases hp : (threads j).pc <;> simp [Pc.parked]
          rw [hp] at hwf
          simp [Pc.wellFormed] at hwf
          simp [hwf.2] at hsusp
      · refine hjinv.mono _ _ _ _ _ _ ?_ ?_ ?_ <;>
          (simp_all [CoordinatorPc.holds, CoordinatorPc.hasLocked, CoordinatorPc.hasSignalled] <;>
            omega)
  | resumeSignal i =>
    simp only [System.coordinatorStep] at hstep
    simp at hstep
    subst hstep
    intro j hj
    simp only [System.setThread] at hj ⊢
    have hjinv := h j hj
    by_cases hji : j = i
    · subst hji
      simp only [Function.update_same]
      have hw := Thread.wake_threadInvariant _ _ _ _ hjinv
      obtain ⟨hwf, hown, hco, hnc, hnp⟩ := hw
      refine ⟨hwf, hown, ?_, ?_, ?_⟩
      · intro _
        exact hco (by simp [CoordinatorPc.holds])
      · intro hf _
        exact hnc hf (by simp [CoordinatorPc.hasLocked])
      · intro _ _
        exact Thread.wake_parked _
    · rw [Function.update_noteq hji]
      refine hjinv.mono _ _ _ _ _ _ ?_ ?_ ?_ <;>
        (simp_all [CoordinatorPc.holds, CoordinatorPc.hasLocked, CoordinatorPc.hasSignalled] <;>
          omega)
  | resumeUnlock i =>
    simp only [System.coordinatorStep] at hstep
    simp at hstep
    subst hstep
    intro j hj
    simp only [System.setThread] at hj ⊢
    have hjinv := h j hj
    by_cases hji : j = i
    · subst hji
      simp only [Function.update_same]
      obtain ⟨hwf, hown, hco, hnc, hnp⟩ := hjinv
      have hmc := hco (by simp [CoordinatorPc.holds])
      have hnh : (threads j).pc.holdsMutex = false := by
        cases hh : (threads j).pc.holdsMutex
        · rfl
        · rw [hown hh] at hmc
          exact absurd hmc (by decide)
      refine ⟨hwf, ?_, ?_, ?_, ?_⟩
      · simp [hnh]
      · simp [CoordinatorPc.holds]
      · intro hf _
        exact hnc hf (by simp [CoordinatorPc.hasLocked])
      · intro hf _
        exact hnp hf (by simp [CoordinatorPc.hasSignalled])
    · rw [Function.update_noteq hji]
      refine hjinv.mono _ _ _ _ _ _ ?_ ?_ ?_ <;>
        simp_all [CoordinatorPc.holds, CoordinatorPc.hasLocked, CoordinatorPc.hasSignalled] <;>
        omega
  | idle | suspendScan i | suspendYield | stopped | resumeAssert i | resumeScan i | resumeYield
    | aborted =>
    simp only [System.coordinatorStep] at hstep
    try split_ifs at hstep
    all_goals (try simp at hstep)
    all_goals (try subst hstep)
    all_goals intro j hj
    all_goals simp only at hj ⊢
    all_goals have hjinv := h j hj
    all_goals
      refine hjinv.mono _ _ _ _ _ _ ?_ ?_ ?_ <;>
        simp_all [CoordinatorPc.holds, CoordinatorPc.hasLocked, CoordinatorPc.hasSignalled] <;>
        omega

theorem System.setThread_invariant (σ : System) (i : Nat) (t : Thread) (h : σ.Invariant)
    (ht : ThreadInvariant σ.gSuspensionRequested σ.coordinator i t) :
    (σ.setThread i t).Invariant := by
  intro j hj
  simp only [System.setThread] at hj ⊢
  by_cases hji : j = i
  · subst hji
    simpa using ht
  · rw [Function.update_noteq hji]
    exact h j hj

theorem System.step_invariant (σ σ' : System) (a : Action) (hstep : σ.step a = some σ')
    (h : σ.Invariant) : σ'.Invariant := by
  unfold System.step at hstep
  split_ifs at hstep
  cases a with
  | callSwitch i newState =>
    simp only at hstep
    split_ifs at hstep with hc
    simp only [Option.some.injEq] at hstep
    subst hstep
    exact σ.setThread_invariant i _ h
      (Thread.call_threadInvariant _ _ _ _ _ (Or.inl ⟨newState, rfl⟩) (h i hc.1))
  | callPoll i =>
    simp only at hstep
    split_ifs at hstep with hc
    simp only [Option.some.injEq] at hstep
    subst hstep
    exact σ.setThread_invariant i _ h (Thread.call_threadInvariant _ _ _ _ _ (Or.inr rfl) (h i hc.1))
  | mutator i =>
    simp only at hstep
    split_ifs at hstep with hc
    cases ht : (σ.threads i).step σ.gSuspensionRequested with
    | none => simp [ht] at hstep
    | some t =>
      simp only [ht, Option.some.injEq] at hstep
      subst hstep
      exact σ.setThread_invariant i t h (Thread.step_threadInvariant _ _ _ _ _ ht (h i hc))
  | spuriousWakeup i =>
    simp only at hstep
    split_ifs at hstep with hc
    simp only [Option.some.injEq] at hstep
    subst hstep
    exact σ.setThread_invariant i _ h (Thread.wake_threadInvariant _ _ _ _ (h i hc))
  | coordinator => exact σ.coordinatorStep_invariant σ' hstep h

theorem System.run_invariant (schedule : List Action) (σ σ' : System)
    (hrun : σ.run schedule = some σ') (h : σ.Invariant) : σ'.Invariant := by
  induction schedule generalizing σ with
  | nil =>
    simp only [System.run, Option.some.injEq] at hrun
    subst hrun
    exact h
  | cons a rest ih =>
    simp only [System.run] at hrun
    cases hs : σ.step a with
    | none => simp [hs] at hrun
    | some σ₁ =>
      simp only [hs] at hrun
      exact ih σ₁ hrun (σ.step_invariant σ₁ a hs h)

theorem System.init_invariant (size : Nat) (states : Nat → ThreadState) :
    (System.init size states).Invariant := by
  intro i _
  constructor <;> simp [System.init, Pc.wellFormed, Pc.holdsMutex, Pc.committed, Pc.parked,
    CoordinatorPc.holds]

theorem hasSignalled_of_signallingPassDone (c : CoordinatorPc) (i : Nat)
    (h : c.signallingPassDone = true) : c.hasSignalled i = true := by
  cases c <;> simp_all [CoordinatorPc.signallingPassDone, CoordinatorPc.hasSignalled]

theorem Thread.wake_state (t : Thread) : t.wake.state = t.state := by
  obtain ⟨state, mutex, pc⟩ := t
  cases pc <;> rfl

theorem System.setThread_state (σ : System) (j : Nat) (t : Thread)
    (ht : t.state = (σ.threads j).state) (k : Nat) :
    ((σ.setThread j t).threads k).state = (σ.threads k).state := by
  simp only [System.setThread]
  by_cases hkj : k = j
  · subst hkj
    simpa using ht
  · rw [Function.update_noteq hkj]

/-- No step of the coordinator writes a thread's state. -/
theorem System.coordinatorStep_state (σ σ' : System) (h : σ.coordinatorStep = some σ')
    (k : Nat) : (σ'.threads k).state = (σ.threads k).state := by
  cases hc : σ.coordinator <;> simp only [System.coordinatorStep, hc] at h
  all_goals (try split_ifs at h)
  all_goals (try simp only [Option.some.injEq, reduceCtorEq] at h)
  all_goals (try subst h)
  all_goals (try rfl)
  · exact σ.setThread_state _ { σ.threads _ with suspendMutex := .coordinator } rfl k
  · exact σ.setThread_state _ _ (Thread.wake_state _) k
  · exact σ.setThread_state _ { σ.threads _ with suspendMutex := .free } rfl k

/-- C9: in every state reachable by interleaving the mutators' calls of
`SwitchThreadState` and `SuspendCurrentThreadIfRequested` (spurious wake-ups included) with
the coordinator's `SuspendThreads(); ResumeThreads();` cycles, if the flag is clear then no
registered thread that the signalling pass has dealt with is parked unsignalled; in
particular none is once the pass has finished. -/
theorem no_lost_wakeup (size : Nat) (states : Nat → ThreadState) (schedule : List Action)
    (σ : System) (hrun : (System.init size states).run schedule = some σ)
    (hflag : σ.gSuspensionRequested = false) :
    (σ.coordinator.signallingPassDone = true →
      ∀ i, i < σ.size → (σ.threads i).pc.parked = false) ∧
    (∀ i, i < σ.size → σ.coordinator.hasSignalled i = true →
      (σ.threads i).pc.parked = false) := by
  have hinv := System.run_invariant schedule _ σ hrun (System.init_invariant size states)
  exact ⟨fun hdone i hi =>
      (hinv i hi).notParked hflag (hasSignalled_of_signallingPassDone _ i hdone),
    fun i hi hs => (hinv i hi).notParked hflag hs⟩

theorem parkSchedule_runs :
    ((System.init 1 (fun _ => .kRunnable)).run parkSchedule).isSome = true := by decide

theorem no_lost_wakeup_witness :
    (Option.get _ parkSchedule_runs).gSuspensionRequested = false ∧
    (Option.get _ parkSchedule_runs).coordinator = .resumeScan 0 ∧
    ((Option.get _ parkSchedule_runs).threads 0).pc = .pollWoken .kRunnable .mutator ∧
    ((Option.get _ parkSchedule_runs).threads 0).pc.parked = false :=
  ⟨by decide, by decide, by decide,
    (no_lost_wakeup 1 (fun _ => .kRunnable) parkSchedule (Option.get _ parkSchedule_runs)
      (Option.some_get parkSchedule_runs).symm (by decide)).1 (by decide) 0 (by decide)⟩

/-- C3: the race of the state switch with `SuspendThreads`. Running `raceSchedule` from one
Runnable thread ends with `SuspendThreads` returned, the flag set, `ResumeThreads` not yet
called, and thread 0 outside every call in state Runnable; the two following steps of the
coordinator clear the flag and fail the assertion of `ResumeThreads` on thread 0. -/
theorem SwitchThreadState_races_with_SuspendThreads :
    ((System.init 1 (fun _ => .kRunnable)).run raceSchedule).map System.observe
      = some (.stopped, true, false,
          { state := .kRunnable, suspendMutex := .free, pc := .idle }) ∧
    ((System.init 1 (fun _ => .kRunnable)).run
        (raceSchedule ++ [.coordinator, .coordinator])).map System.observe
      = some (.aborted, false, true,
          { state := .kRunnable, suspendMutex := .free, pc := .idle }) := by
  constructor <;> decide

/-! ### The interleaving semantics agrees with Part I on a thread that runs alone -/

theorem Thread.runAlone_SwitchThreadState (requested : Nat → Bool) (m : Mutator)
    (newState : ThreadState) (h : newState ≠ m.state) :
    ∃ m', SwitchThreadState requested m newState = .returned m.state m' ∧
      Thread.runAlone requested 16
          (m.loads, { state := m.state, suspendMutex := .free,
                      pc := .switchEntry newState .mutator })
        = (m'.loads, { state := m'.state, suspendMutex := .free, pc := .idle }) := by
  refine ⟨_, SwitchThreadStateAux_returns requested 1 m newState h, ?_⟩
  obtain ⟨⟨id, s⟩, loads, trace⟩ := m
  simp only [Mutator.state] at h ⊢
  cases h1 : requested loads <;> cases h2 : requested (loads + 1) <;>
    cases s <;> cases newState <;>
    first
    | exact absurd rfl h
    | simp [Thread.runAlone, Thread.step, Thread.wake, Pc.parked, Pc.loadsFlag,
        isStateSwitchAllowed, expectedContainsActual, SwitchCaller.resume, PollCaller.resume,
        Mutator.afterPoll, Mutator.afterPark, Mutator.setState, Mutator.lockSuspendMutex,
        Mutator.unlockSuspendMutex, Mutator.condWait, Mutator.state, h1, h2]

theorem Thread.runAlone_SwitchThreadState_same (requested : Nat → Bool) (m : Mutator) :
    (SwitchThreadState requested m m.state).isViolation = true ∧
    Thread.runAlone requested 16
        (m.loads, { state := m.state, suspendMutex := .free,
                    pc := .switchEntry m.state .mutator })
      = (m.loads, { state := m.state, suspendMutex := .free, pc := .aborted }) := by
  refine ⟨by rw [show SwitchThreadState requested m m.state = _ from
    SwitchThreadStateAux_same requested 3 m]; rfl, ?_⟩
  simp [Thread.runAlone, Thread.step, Pc.parked, Pc.loadsFlag, isStateSwitchAllowed]

theorem Thread.runAlone_poll (requested : Nat → Bool) (m : Mutator)
    (hs : m.state = .kRunnable ∨ m.state = .kNative) :
    ∃ m', SuspendCurrentThreadIfRequested requested m = .returned () m' ∧
      Thread.runAlone requested 16
          (m.loads, { state := m.state, suspendMutex := .free, pc := .pollEntry .mutator })
        = (m'.loads, { state := m'.state, suspendMutex := .free, pc := .idle }) := by
  refine ⟨_, poll_returns requested 2 m hs, ?_⟩
  obtain ⟨⟨id, s⟩, loads, trace⟩ := m
  simp only [Mutator.state] at hs ⊢
  cases h1 : requested loads <;> cases h2 : requested (loads + 1) <;>
    rcases hs with rfl | rfl <;>
    simp [Thread.runAlone, Thread.step, Thread.wake, Pc.parked, Pc.loadsFlag,
        isStateSwitchAllowed, expectedContainsActual, SwitchCaller.resume, PollCaller.resume,
        Mutator.afterPoll, Mutator.afterPark, Mutator.setState, Mutator.lockSuspendMutex,
        Mutator.unlockSuspendMutex, Mutator.condWait, Mutator.state, h1, h2]

/-! ### The interleaving semantics agrees with Part II on a coordinator that runs alone -/

theorem System.runCoordinator_succ (σ σ' : System) (steps : Nat)
    (h : σ.step .coordinator = some σ') :
    System.runCoordinator (steps + 1) σ = System.runCoordinator steps σ' := by
  simp [System.runCoordinator, h]

theorem System.quiescent_visit (size : Nat) (states : Nat → ThreadState) (i : Nat)
    (hi : i < size) (hs : states i ≠ .kRunnable) (steps : Nat) :
    System.runCoordinator (steps + (if states i = .kSuspended then 5 else 4))
        (System.quiescent size states false (.resumeAssert i) false)
      = System.runCoordinator steps
          (System.quiescent size states false (.resumeAssert (i + 1)) false) := by
  have hassert := (expectedContainsActual_native_suspended _).mpr hs
  have h1 : (System.quiescent size states false (.resumeAssert i) false).step .coordinator
      = some (System.quiescent size states false (.resumeLock i) false) := by
    simp [System.step, System.quiescent, System.coordinatorStep, hi, hassert]
  have h2 : (System.quiescent size states false (.resumeLock i) false).step .coordinator
      = some { System.quiescent size states false (.resumeCheck i) false with
          threads := Function.update
            (System.quiescent size states false (.resumeCheck i) false).threads
            i { state := states i, suspendMutex := .coordinator, pc := .idle } } := by
    simp [System.step, System.quiescent, System.coordinatorStep, System.setThread]
  have h4 : ({ System.quiescent size states false (.resumeUnlock i) false with
          threads := Function.update
            (System.quiescent size states false (.resumeCheck i) false).threads
            i { state := states i, suspendMutex := .coordinator, pc := .idle } }
        : System).step .coordinator
      = some (System.quiescent size states false (.resumeAssert (i + 1)) false) := by
    simp only [System.step, System.quiescent, System.coordinatorStep, System.setThread,
      Bool.false_eq_true, if_false, Function.update_same, Function.update_idem,
      Option.some.injEq]
    congr 1
    exact Function.update_eq_self i _
  by_cases hsus : states i = .kSuspended
  · have h3 : ({ System.quiescent size states false (.resumeCheck i) false with
            threads := Function.update
              (System.quiescent size states false (.resumeCheck i) false).threads
              i { state := states i, suspendMutex := .coordinator, pc := .idle } }
          : System).step .coordinator
        = some { System.quiescent size states false (.resumeSignal i) false with
            threads := Function.update
              (System.quiescent size states false (.resumeCheck i) false).threads
              i { state := states i, suspendMutex := .coordinator, pc := .idle } } := by
      simp [System.step, System.quiescent, System.coordinatorStep, hsus]
    have h3' : ({ System.quiescent size states false (.resumeSignal i) false with
            threads := Function.update
              (System.quiescent size states false (.resumeCheck i) false).threads
              i { state := states i, suspendMutex := .coordinator, pc := .idle } }
          : System).step .coordinator
        = some { System.quiescent size states false (.resumeUnlock i) false with
            threads := Function.update
              (System.quiescent size states false (.resumeCheck i) false).threads
              i { state := states i, suspendMutex := .coordinator, pc := .idle } } := by
      simp [System.step, System.quiescent, System.coordinatorStep, System.setThread,
        Thread.wake]
    rw [if_pos hsus, show steps + 5 = steps + 4 + 1 from rfl, System.runCoordinator_succ _ _ _ h1,
      show steps + 4 = steps + 3 + 1 from rfl, System.runCoordinator_succ _ _ _ h2,
      show steps + 3 = steps + 2 + 1 from rfl, System.runCoordinator_succ _ _ _ h3,
      show steps + 2 = steps + 1 + 1 from rfl, System.runCoordinator_succ _ _ _ h3',
      System.runCoordinator_succ _ _ _ h4]
  · have h3 : ({ System.quiescent size states false (.resumeCheck i) false with
            threads := Function.update
              (System.quiescent size states false (.resumeCheck i) false).threads
              i { state := states i, suspendMutex := .coordinator, pc := .idle } }
          : System).step .coordinator
        = some { System.quiescent size states false (.resumeUnlock i) false with
            threads := Function.update
              (System.quiescent size states false (.resumeCheck i) false).threads
              i { state := states i, suspendMutex := .coordinator, pc := .idle } } := by
      simp [System.step, System.quiescent, System.coordinatorStep, hsus]
    rw [if_neg hsus, show steps + 4 = steps + 3 + 1 from rfl, System.runCoordinator_succ _ _ _ h1,
      show steps + 3 = steps + 2 + 1 from rfl, System.runCoordinator_succ _ _ _ h2,
      show steps + 2 = steps + 1 + 1 from rfl, System.runCoordinator_succ _ _ _ h3,
      System.runCoordinator_succ _ _ _ h4]

theorem System.quiescent_abort (size : Nat) (states : Nat → ThreadState) (i : Nat)
    (hi : i < size) (hs : states i = .kRunnable) (steps : Nat) :
    System.runCoordinator (steps + 1) (System.quiescent size states false (.resumeAssert i) false)
      = System.quiescent size states false .aborted true := by
  have h1 : (System.quiescent size states false (.resumeAssert i) false).step .coordinator
      = some (System.quiescent size states false .aborted true) := by
    simp [System.step, System.quiescent, System.coordinatorStep, hi, hs, expectedContainsActual]
  rw [System.runCoordinator_succ _ _ _ h1]
  cases steps <;> simp [System.runCoordinator, System.step, System.quiescent]

theorem passSteps_pos (states : Nat → ThreadState) (i remaining : Nat) :
    ∃ k, passSteps states i remaining = k + 1 := by
  cases remaining with
  | zero => exact ⟨0, rfl⟩
  | succ k =>
    simp only [passSteps]
    split_ifs
    · exact ⟨4 + passSteps states (i + 1) k, by omega⟩
    · exact ⟨3 + passSteps states (i + 1) k, by omega⟩

theorem System.quiescent_pass (size : Nat) (states : Nat → ThreadState) (remaining i : Nat)
    (hi : i + remaining = size) (steps : Nat) :
    ((∃ j, i ≤ j ∧ j < size ∧ states j = .kRunnable) →
      System.runCoordinator (passSteps states i remaining + steps)
          (System.quiescent size states false (.resumeAssert i) false)
        = System.quiescent size states false .aborted true) ∧
    ((¬ ∃ j, i ≤ j ∧ j < size ∧ states j = .kRunnable) →
      System.runCoordinator (passSteps states i remaining + steps)
          (System.quiescent size states false (.resumeAssert i) false)
        = System.runCoordinator steps
            (System.quiescent size states false (.resumeScan 0) false)) := by
  induction remaining generalizing i with
  | zero =>
    have hlt : ¬ i < size := by omega
    refine ⟨?_, fun _ => ?_⟩
    · rintro ⟨j, h1, h2, -⟩
      omega
    · have h1 : (System.quiescent size states false (.resumeAssert i) false).step .coordinator
          = some (System.quiescent size states false (.resumeScan 0) false) := by
        simp [System.step, System.quiescent, System.coordinatorStep, hlt]
      rw [show passSteps states i 0 + steps = steps + 1 by simp [passSteps]; omega,
        System.runCoordinator_succ _ _ _ h1]
  | succ k ih =>
    have hlt : i < size := by omega
    by_cases hs : states i = .kRunnable
    · refine ⟨fun _ => ?_, fun hno => absurd ⟨i, le_refl _, hlt, hs⟩ hno⟩
      obtain ⟨n, hn⟩ := passSteps_pos states i (k + 1)
      rw [hn, show n + 1 + steps = (n + steps) + 1 by omega,
        System.quiescent_abort size states i hlt hs]
    · have hiff : (∃ j, i + 1 ≤ j ∧ j < size ∧ states j = .kRunnable)
          ↔ ∃ j, i ≤ j ∧ j < size ∧ states j = .kRunnable := by
        constructor
        · rintro ⟨j, h1, h2, h3⟩
          exact ⟨j, by omega, h2, h3⟩
        · rintro ⟨j, h1, h2, h3⟩
          refine ⟨j, ?_, h2, h3⟩
          by_contra hc
          have : j = i := by omega
          subst this
          exact hs h3
      obtain ⟨ih1, ih2⟩ := ih (i + 1) (by omega)
      have e : passSteps states i (k + 1) + steps
          = (passSteps states (i + 1) k + steps) + (if states i = .kSuspended then 5 else 4) := by
        simp only [passSteps]
        omega
      rw [e, System.quiescent_visit size states i hlt hs, ← hiff]
      exact ⟨ih1, ih2⟩

/-- Run alone from the call of `ResumeThreads` on quiescent threads, the coordinator of the
interleaving semantics aborts iff the signalling pass of Part II fails, and otherwise reaches
the final scan with the flag clear and every thread and mutex as before. -/
theorem System.runCoordinator_signallingPass (states : List ThreadState) (c : Coordinator) :
    System.runCoordinator (passSteps (fun i => states.getD i .kRunnable) 0 states.length + 1)
        (System.quiescent states.length (fun i => states.getD i .kRunnable) true .stopped false)
      = (if (ResumeThreads.signallingPass (ThreadRegistry.static states) c).isViolation then
          System.quiescent states.length (fun i => states.getD i .kRunnable) false .aborted true
        else
          System.quiescent states.length (fun i => states.getD i .kRunnable) false
            (.resumeScan 0) false) := by
  have h0 : (System.quiescent states.length (fun i => states.getD i .kRunnable) true .stopped
      false).step .coordinator
      = some (System.quiescent states.length (fun i => states.getD i .kRunnable) false
          (.resumeAssert 0) false) := by
    simp [System.step, System.quiescent, System.coordinatorStep]
  obtain ⟨hfail, hok⟩ := System.quiescent_pass states.length (fun i => states.getD i .kRunnable)
    states.length 0 (by omega) 0
  have hstat := signalThreadsFrom_static (ThreadRegistry.static states) states 0
    (c.storeRequested false) (by intro t j; simp [ThreadRegistry.static])
  have hmem : (∃ j, 0 ≤ j ∧ j < states.length ∧ states.getD j .kRunnable = .kRunnable)
      ↔ ThreadState.kRunnable ∈ states := by
    constructor
    · rintro ⟨j, -, h2, h3⟩
      rw [List.getD_eq_getElem _ _ h2] at h3
      exact h3 ▸ List.getElem_mem h2
    · intro h
      obtain ⟨j, hj, hjs⟩ := List.getElem_of_mem h
      exact ⟨j, Nat.zero_le _, hj, by rw [List.getD_eq_getElem _ _ hj, hjs]⟩
  rw [System.runCoordinator_succ _ _ _ h0]
  have hpass : ResumeThreads.signallingPass (ThreadRegistry.static states) c
      = signalThreadsFrom (ThreadRegistry.static states) states.length 0
          (c.storeRequested false) := rfl
  rw [hpass, hstat]
  by_cases hr : ThreadState.kRunnable ∈ states
  · rw [show passSteps (fun i => states.getD i .kRunnable) 0 states.length
        = passSteps (fun i => states.getD i .kRunnable) 0 states.length + 0 from rfl,
      hfail (hmem.mpr hr)]
    simp [hr, Outcome.isViolation]
  · rw [show passSteps (fun i => states.getD i .kRunnable) 0 states.length
        = passSteps (fun i => states.getD i .kRunnable) 0 states.length + 0 from rfl,
      hok (fun h => hr (hmem.mp h))]
    simp [hr, Outcome.isViolation, System.runCoordinator]

/-- The scenario of the specification: one Runnable thread polls during a suspension. The
coordinator sees it Suspended when `SuspendThreads` has returned and Runnable, outside the
poll, when `ResumeThreads` has returned. -/
theorem roundTrip_scenario :
    ((System.init 1 (fun _ => .kRunnable)).run (parkSchedule.take 11)).map System.observe
      = some (.stopped, true, false,
          { state := .kSuspended, suspendMutex := .free,
            pc := .pollParked .kRunnable .mutator }) ∧
    ((System.init 1 (fun _ => .kRunnable)).run roundTripSchedule).map System.observe
      = some (.idle, false, false,
          { state := .kRunnable, suspendMutex := .free, pc := .idle }) := by
  constructor <;> decide

/-- A second way to the same state, for a platform whose `pthread_cond_wait` can wake up
spuriously: the thread is Native while the suspension is requested, parks on its way to
Runnable, wakes up without a signal and stores Runnable while the flag is still set and
`ResumeThreads` has not been called. -/
theorem spurious_wakeup_leaves_thread_runnable :
    ((System.init 1 (fun _ => .kRunnable)).run spuriousSchedule).map System.observe
      = some (.stopped, true, false,
          { state := .kRunnable, suspendMutex := .free, pc := .idle }) := by
  decide

/-! ### Instances -/

theorem SwitchThreadState_returns_previous_witness :
    ThreadState.kRunnable ≠ nativeThread.state ∧
    ∃ m', SwitchThreadState (fun _ => true) nativeThread .kRunnable
        = .returned nativeThread.state m' ∧
      m'.state = .kRunnable ∧ m'.threadData.id = nativeThread.threadData.id :=
  ⟨by decide,
    SwitchThreadState_returns_previous (fun _ => true) nativeThread .kRunnable (by decide)⟩

theorem SwitchThreadState_violation_iff_witness :
    ThreadState.kNative = nativeThread.state ∧
    SwitchThreadState (fun _ => true) nativeThread .kNative
      = .violation (.illegalSwitch nativeThread.state .kNative) nativeThread :=
  ⟨rfl, (SwitchThreadState_violation_iff (fun _ => true) nativeThread .kNative).2 rfl⟩

theorem SuspendCurrentThreadIfRequested_not_requested_witness :
    (fun _ => false) runnableThread.loads = false ∧
    SuspendCurrentThreadIfRequested (fun _ => false) runnableThread
      = .returned () { runnableThread with loads := runnableThread.loads + 1 } :=
  ⟨rfl, SuspendCurrentThreadIfRequested_not_requested (fun _ => false) runnableThread rfl⟩

theorem SuspendCurrentThreadIfRequested_parks_witness :
    (runnableThread.state = .kRunnable ∨ runnableThread.state = .kNative) ∧
    ∃ m' es, SuspendCurrentThreadIfRequested (fun _ => true) runnableThread = .returned () m' ∧
      m'.trace = runnableThread.trace ++ es ∧
      es = [ Event.lock runnableThread.threadData.id,
             Event.setState runnableThread.threadData.id .kSuspended,
             Event.condWait runnableThread.threadData.id .kSuspended,
             Event.setState runnableThread.threadData.id runnableThread.state,
             Event.unlock runnableThread.threadData.id ] ∧
      m'.state = runnableThread.state ∧
      (∀ before, suspendMutexHeld runnableThread.threadData.id before m'.trace = false) ∧
      (∀ v, Event.storeRequested v ∉ es) :=
  ⟨Or.inl rfl,
    SuspendCurrentThreadIfRequested_parks (fun _ => true) runnableThread (Or.inl rfl) rfl rfl⟩

theorem SuspendThreads_contract_witness :
    (∀ i, i < (ThreadRegistry.static [.kNative, .kSuspended]).size →
      isSuspendedOrNative
        ⟨i, (ThreadRegistry.static [.kNative, .kSuspended]).stateAt
          (freshCoordinator.clock + i) i⟩ = true) ∧
    SuspendThreads (ThreadRegistry.static [.kNative, .kSuspended]) 1 freshCoordinator
      = .returned ()
          { gSuspensionRequested := true
            clock := freshCoordinator.clock + 2
            trace := freshCoordinator.trace ++ [Event.storeRequested true] } :=
  ⟨by decide,
    (SuspendThreads_contract (ThreadRegistry.static [.kNative, .kSuspended])
      freshCoordinator).2.2 (by decide) 0⟩

theorem ResumeThreads_contract_witness :
    (∀ i, i < wakingRegistry.size →
      wakingRegistry.stateAt (freshCoordinator.clock + 2 * i) i ≠ .kRunnable) ∧
    ∃ c', ResumeThreads wakingRegistry 1 freshCoordinator = .returned () c' ∧
      c'.clock = freshCoordinator.clock + 3 * wakingRegistry.size :=
  ⟨by decide,
    (ResumeThreads_contract wakingRegistry freshCoordinator).2 (by decide) (by decide) 0⟩

end kotlin
